import Mathlib

/-!
NaviPanel motion controller: odometry, protection state machine, scheduler.

Shallow embedding of `Software/Source/App/motion_control.c` and
`Software/Source/Driver/tim_user.c`.

Conventions of the embedding.

* A C `s32` value is an `Int`; the result of every `s32` arithmetic
  operation is reduced with `wrapS32` (two's complement wrap-around, which is
  what the Cortex-M target does).  `u16` counters are `Nat` reduced modulo
  `65536` on increment.
* C `/` and `%` on signed operands truncate towards zero: `Int.tdiv`,
  `Int.tmod`.
* Function-local `static` variables become fields of an explicit record that
  is passed in and returned.
* A division whose divisor is zero has no defined result: the function
  returns `none`.
* The translation unit is embedded as compiled without `_DEBUG`, so the two
  `#ifdef _DEBUG` blocks are absent.
* Constants that live in headers outside the two source files are fields of
  `Config` (`MOTION_PREQ`, the `DRV_ERR_*` bits) and of `TimConfig`
  (`IMU_UPDATE_FREQ`, `BASIC_TIM_FREQ`, `BASIC_TIM_PERIOD`).
* `u32` values are `Nat`; the result of every `u32` operation is reduced
  with `wrapU32`.
-/

namespace NaviPanel

/-! ## Machine arithmetic -/

/-- Two's complement reduction of an integer to the `s32` range. -/
def wrapS32 (x : Int) : Int := (x + 2147483648) % 4294967296 - 2147483648

/-- The integer is representable as an `s32`. -/
def fitsS32 (x : Int) : Prop := -2147483648 ≤ x ∧ x ≤ 2147483647

instance (x : Int) : Decidable (fitsS32 x) := by
  unfold fitsS32; infer_instance

/-- C library `abs` on `int`: the negation is an `s32` operation, so
`abs(INT_MIN)` stays `INT_MIN`. -/
def cabs (x : Int) : Int := if x < 0 then wrapS32 (-x) else x

/-- Increment of a `u16` variable. -/
def incU16 (x : Nat) : Nat := (x + 1) % 65536

/-! ## Data model -/

/-- Velocity command or measurement: `sV` linear, `sW` angular. -/
structure CSpeedVW where
  sV : Int
  sW : Int
  deriving DecidableEq, Repr

/-- Pose accumulated by dead reckoning. -/
structure CDistanceValue where
  distance : Int
  theta : Int
  deriving DecidableEq, Repr

/-- Modelled from the spec: the `DEGREE` macro, whose header is not among the
source files.  The spec fixes the angular unit as millidegrees, so
`DEGREE(x)` is `x * 1000`. -/
def DEGREE (x : Int) : Int := x * 1000

/-- The macro `W_NOISE_TH`, defined as `(DEGREE(1)/4)`. -/
def W_NOISE_TH : Int := Int.tdiv (DEGREE 1) 4

/-! ## `CarLocationUpdate` -/

/-- The two function-local statics of `CarLocationUpdate`. -/
structure LocationStatics where
  delta_theta_remainder : Int
  delta_distance_remainder : Int
  deriving DecidableEq, Repr

/-- Lines 62-64: the value `delta_distance` holds after line 62, before the
split into quotient and remainder. -/
def distanceSum (rem sV period : Int) : Int :=
  wrapS32 (wrapS32 (sV * period) + rem)

/-- Lines 62-64: whole units of travel of this call and the remainder carried
to the next call. -/
def distanceStep (rem sV period : Int) : Int × Int :=
  (Int.tdiv (distanceSum rem sV period) 1000000,
   Int.tmod (distanceSum rem sV period) 1000000)

/-- Lines 67-76: `delta_theta` of this call and the value of
`delta_theta_remainder` after it. -/
def thetaStep (rem sW period : Int) : Int × Int :=
  if cabs sW < W_NOISE_TH then
    (0, rem)
  else
    (Int.tdiv (wrapS32 (wrapS32 (sW * period) + rem)) 1000000,
     Int.tmod (wrapS32 (wrapS32 (sW * period) + rem)) 1000000)

/-- Lines 78-84: add the angular delta and bring the heading back into one
turn. -/
def thetaWrap (theta delta_theta : Int) : Int :=
  let t1 := wrapS32 (theta + delta_theta)
  let t2 := Int.tmod t1 (DEGREE 360)
  if t2 < 0 then wrapS32 (t2 + DEGREE 360) else t2

/-- The function `CarLocationUpdate(distance, present_speed, period)`. -/
def CarLocationUpdate (st : LocationStatics) (distance : CDistanceValue)
    (present_speed : CSpeedVW) (period : Int) : LocationStatics × CDistanceValue :=
  let dd := distanceStep st.delta_distance_remainder present_speed.sV period
  let dt := thetaStep st.delta_theta_remainder present_speed.sW period
  ({ delta_theta_remainder := dt.2, delta_distance_remainder := dd.2 },
   { distance := wrapS32 (distance.distance + dd.1),
     theta := thetaWrap distance.theta dt.1 })

/-- Successive calls of `CarLocationUpdate`, one per list entry
`(present_speed, period)`. -/
def CarLocationRun :
    LocationStatics × CDistanceValue → List (CSpeedVW × Int) → LocationStatics × CDistanceValue
  | s, [] => s
  | s, i :: rest => CarLocationRun (CarLocationUpdate s.1 s.2 i.1 i.2) rest

/-- No `s32` operation on the linear path of one call overflows: the
product, the sum with the carried remainder, and the accumulation. -/
def linearNoOverflow (st : LocationStatics) (distance : CDistanceValue)
    (present_speed : CSpeedVW) (period : Int) : Prop :=
  fitsS32 (present_speed.sV * period) ∧
  fitsS32 (present_speed.sV * period + st.delta_distance_remainder) ∧
  fitsS32 (distance.distance +
    (distanceStep st.delta_distance_remainder present_speed.sV period).1)

instance (st : LocationStatics) (d : CDistanceValue) (v : CSpeedVW) (p : Int) :
    Decidable (linearNoOverflow st d v p) := by
  unfold linearNoOverflow; infer_instance

/-- No `s32` operation on the linear path overflows in any call of the run. -/
def linearNoOverflowRun :
    LocationStatics × CDistanceValue → List (CSpeedVW × Int) → Bool
  | _, [] => true
  | s, i :: rest =>
    decide (linearNoOverflow s.1 s.2 i.1 i.2) &&
      linearNoOverflowRun (CarLocationUpdate s.1 s.2 i.1 i.2) rest

/-! ## Velocity staging and the protection state machine -/

/-- Build-time constants whose defining headers are outside the two source
files: the motion-loop frequency and the two fatal fault bits. -/
structure Config where
  MOTION_PREQ : Nat
  DRV_ERR_COMM_TIMEOUT : Nat
  DRV_ERR_TILT : Nat
  deriving DecidableEq, Repr

/-- The function-local statics of `DropAndCollisionSensorHandler` that carry
information from one call to the next (`drop_stop` and `collision_stop` are
overwritten at the start of every call; `last_collision` and
`last_collision_stop` are never used). -/
structure HandlerStatics where
  is_protect : Bool
  time_cnt : Nat
  dealy_cnt : Nat
  deriving DecidableEq, Repr

/-- What one call of the handler leaves behind: its statics, the command
behind the `target` pointer, and the returned flag. -/
structure HandlerResult where
  statics : HandlerStatics
  target : CSpeedVW
  ret : Bool
  deriving DecidableEq, Repr

/-- The function `DropAndCollisionSensorHandler(target, freq)`; `drop` is the
byte returned by `InfraredDrop_GetData()`.  The collision byte is the
constant `0` of line 136.  The result is `none` when the division of line 174
has a zero divisor. -/
def DropAndCollisionSensorHandler (st : HandlerStatics) (target : CSpeedVW)
    (drop : Nat) (freq : Nat) : Option HandlerResult :=
  let drop_stop : Bool := decide (drop ≠ 0)
  let collision_stop : Bool := decide ((0 : Nat) ≠ 0)
  if drop_stop || collision_stop then
    let st1 : HandlerStatics :=
      if target.sV > 0 ∨ target.sW ≠ 0 then
        { st with is_protect := true, dealy_cnt := 0 }
      else st
    if st1.is_protect then
      if (st1.time_cnt : Int) > 3 * (freq : Int) then
        some ⟨st1, ⟨0, 0⟩, st1.is_protect⟩
      else
        some ⟨{ st1 with time_cnt := incU16 st1.time_cnt }, ⟨-150, 0⟩, st1.is_protect⟩
    else
      some ⟨st1, target, st1.is_protect⟩
  else if st.is_protect then
    if target.sV = 0 then
      none
    else if (incU16 st.dealy_cnt : Int) > cabs (Int.tdiv (20 * (freq : Int)) target.sV) then
      some ⟨{ is_protect := false, time_cnt := 0, dealy_cnt := incU16 st.dealy_cnt },
        ⟨0, 0⟩, false⟩
    else
      some ⟨{ st with dealy_cnt := incU16 st.dealy_cnt }, target, st.is_protect⟩
  else
    some ⟨st, target, st.is_protect⟩

/-- Successive handler calls on the same target, one per sensor byte, with
nothing else touching the target in between; the result of the last call (the
starting record if there is no call). -/
def handlerRun (freq : Nat) : HandlerResult → List Nat → Option HandlerResult
  | r, [] => some r
  | r, drop :: rest =>
    match DropAndCollisionSensorHandler r.statics r.target drop freq with
    | none => none
    | some r' => handlerRun freq r' rest

/-- Modelled from the spec: the `CHECK_ERR` macro, whose header is not among
the source files.  The spec describes it as testing the aggregated fault
flags against the fatal subset, so it is the bitwise and of flags and mask. -/
def CHECK_ERR (flags mask : Nat) : Nat := flags &&& mask

/-- The function `MotionCheckErr()`; `flags` is the aggregated fault word. -/
def MotionCheckErr (cfg : Config) (flags : Nat) : Nat :=
  CHECK_ERR flags (cfg.DRV_ERR_COMM_TIMEOUT ||| cfg.DRV_ERR_TILT)

/-- All state of `motion_control.c` that the controller cycle reads or
writes: the file-level statics `TargetSpeed` and `VW_Update`, the statics of
`CarLocationUpdate` and of the handler, and the statics of
`ChassisMovingController`. -/
structure MotionStatics where
  TargetSpeed : CSpeedVW
  VW_Update : Nat
  location : LocationStatics
  handler : HandlerStatics
  stop_cnt : Nat
  is_protect : Bool
  present_posture : CDistanceValue
  present_vw : CSpeedVW
  target_vw : CSpeedVW
  deriving DecidableEq, Repr

/-- The state at program start: every static is zero or `false`. -/
def initMotion : MotionStatics :=
  { TargetSpeed := ⟨0, 0⟩, VW_Update := 0, location := ⟨0, 0⟩,
    handler := ⟨false, 0, 0⟩, stop_cnt := 0, is_protect := false,
    present_posture := ⟨0, 0⟩, present_vw := ⟨0, 0⟩, target_vw := ⟨0, 0⟩ }

/-- The function `SetVWValue(v, w, t)`. -/
def SetVWValue (s : MotionStatics) (v w : Int) (_t : Nat) : MotionStatics :=
  { s with TargetSpeed := ⟨v, w⟩, VW_Update := 1 }

/-- What one controller cycle reads from its collaborators: the measured
velocity `GlobalParams.presentVW`, the drop sensor byte and the aggregated
fault word. -/
structure CycleInput where
  presentVW : CSpeedVW
  drop : Nat
  err_flags : Nat
  deriving DecidableEq, Repr

/-- The macro `FREQ(cnt, hz)` of `motion_control.c`,
`(++(cnt) >= MOTION_PREQ/(hz))`: the incremented counter and the truth of
the comparison. -/
def FREQ (cfg : Config) (cnt hz : Nat) : Nat × Bool :=
  (incU16 cnt, decide (cfg.MOTION_PREQ / hz ≤ incU16 cnt))

/-- Lines 232-235: latch the measured velocity and update the pose. -/
def locationStage (cfg : Config) (s : MotionStatics) (inp : CycleInput) : MotionStatics :=
  { s with
    present_vw := inp.presentVW
    location := (CarLocationUpdate s.location s.present_posture inp.presentVW
      ((1000000 / cfg.MOTION_PREQ : Nat) : Int)).1
    present_posture := (CarLocationUpdate s.location s.present_posture inp.presentVW
      ((1000000 / cfg.MOTION_PREQ : Nat) : Int)).2 }

/-- Lines 248-252: the frequency-divided sensor check. -/
def sensorCheck (cfg : Config) (s : MotionStatics) (drop : Nat) : Option MotionStatics :=
  if (FREQ cfg s.stop_cnt 500).2 then
    match DropAndCollisionSensorHandler s.handler s.target_vw drop 500 with
    | none => none
    | some r =>
      some { s with stop_cnt := 0, handler := r.statics, target_vw := r.target,
                    is_protect := r.ret }
  else
    some { s with stop_cnt := (FREQ cfg s.stop_cnt 500).1 }

/-- Lines 254-261: take over the staged command unless protecting. -/
def acceptStaged (s : MotionStatics) : MotionStatics :=
  if !s.is_protect then
    if s.VW_Update ≠ 0 then
      { s with VW_Update := 0, target_vw := s.TargetSpeed }
    else s
  else s

/-- Lines 263-267: the global fault override. -/
def errOverride (cfg : Config) (s : MotionStatics) (flags : Nat) : MotionStatics :=
  if MotionCheckErr cfg flags ≠ 0 then
    { s with target_vw := ⟨0, 0⟩ }
  else s

/-- The function `ChassisMovingController()`: the state after the cycle and
the command passed to `SpeedLoop_SetTargetSpeed`.  The status mirror of lines
238-246 only writes the communication register and is left out. -/
def ChassisMovingController (cfg : Config) (s : MotionStatics) (inp : CycleInput) :
    Option (MotionStatics × CSpeedVW) :=
  match sensorCheck cfg (locationStage cfg s inp) inp.drop with
  | none => none
  | some s2 =>
    some (errOverride cfg (acceptStaged s2) inp.err_flags,
          (errOverride cfg (acceptStaged s2) inp.err_flags).target_vw)

/-- States the module can be in: the initial state, closed under completed
controller cycles with any inputs and under calls of `SetVWValue` between
cycles. -/
inductive Reachable (cfg : Config) : MotionStatics → Prop
  | init : Reachable cfg initMotion
  | setVW (s : MotionStatics) (v w : Int) (t : Nat) :
      Reachable cfg s → Reachable cfg (SetVWValue s v w t)
  | cycle (s : MotionStatics) (inp : CycleInput) (s' : MotionStatics) (out : CSpeedVW) :
      Reachable cfg s → ChassisMovingController cfg s inp = some (s', out) →
      Reachable cfg s'

/-- The relation between controller and handler state that every cycle
keeps: the two protecting flags agree, the timeout counter is zero outside
protection, and a protecting state commands the creep or the stop. -/
def ProtectInv (s : MotionStatics) : Prop :=
  s.is_protect = s.handler.is_protect ∧
  (s.handler.is_protect = false → s.handler.time_cnt = 0) ∧
  (s.handler.is_protect = true → s.target_vw = ⟨-150, 0⟩ ∨ s.target_vw = ⟨0, 0⟩)

/-- A configuration with the motion loop at 500 Hz and fault bits 1 and 2. -/
def cfg500 : Config := { MOTION_PREQ := 500, DRV_ERR_COMM_TIMEOUT := 1, DRV_ERR_TILT := 2 }

/-- A configuration with the motion loop at 1000 Hz and fault bits 1 and 2. -/
def cfg1000 : Config := { MOTION_PREQ := 1000, DRV_ERR_COMM_TIMEOUT := 1, DRV_ERR_TILT := 2 }

/-- Successive controller cycles, one per input: the final state and the
commands forwarded to the speed loop, or `none` if a cycle has no result. -/
def runCycles (cfg : Config) :
    MotionStatics → List CycleInput → Option (MotionStatics × List CSpeedVW)
  | s, [] => some (s, [])
  | s, i :: rest =>
    match ChassisMovingController cfg s i with
    | none => none
    | some r =>
      match runCycles cfg r.1 rest with
      | none => none
      | some q => some (q.1, r.2 :: q.2)

/-- A cycle input with the robot at rest: sensor byte and fault word given. -/
def quietInput (drop err_flags : Nat) : CycleInput :=
  { presentVW := ⟨0, 0⟩, drop := drop, err_flags := err_flags }

/-- The state one hazard-free cycle after `SetVWValue(100, 0, 0)` at 500 Hz:
the staged forward command has become the active target. -/
def forwardState : MotionStatics :=
  { initMotion with TargetSpeed := ⟨100, 0⟩, target_vw := ⟨100, 0⟩ }

/-- The state after a hazard has been met at 500 Hz while a fault bit was
set: protecting, with the active command zeroed by the fault override. -/
def zeroedProtectState : MotionStatics :=
  { initMotion with TargetSpeed := ⟨100, 0⟩, target_vw := ⟨0, 0⟩,
                    handler := ⟨true, 1, 0⟩, is_protect := true }

/-- The same situation at 1000 Hz, where the handler runs every second
cycle: protecting, command zeroed, and the divider counter back at zero. -/
def zeroedProtectState1000 : MotionStatics :=
  { initMotion with TargetSpeed := ⟨100, 0⟩, target_vw := ⟨0, 0⟩,
                    handler := ⟨true, 1, 0⟩, is_protect := true, stop_cnt := 1 }

/-- The state at 500 Hz right after a hazard was met while moving forward
with `(100, 0)` and `(200, 5)` was pending: protecting, creeping, `(200, 5)`
still pending. -/
def creepPendingState : MotionStatics :=
  { initMotion with TargetSpeed := ⟨200, 5⟩, VW_Update := 1, target_vw := ⟨-150, 0⟩,
                    handler := ⟨true, 1, 0⟩, is_protect := true }

/-! ## `tim_user.c`: periodic scheduler, interval timer, timer interrupt -/

/-- Constants used by `tim_user.c` whose defining headers are outside the
two source files (`MOTION_PREQ` is shared with `Config`). -/
structure TimConfig where
  IMU_UPDATE_FREQ : Nat
  BASIC_TIM_FREQ : Nat
  BASIC_TIM_PERIOD : Nat
  deriving DecidableEq, Repr

/-- The macro `TICK_FREQ`. -/
def TICK_FREQ : Nat := 1000

/-- Reduction of an integer to the `u32` range. -/
def wrapU32 (x : Int) : Nat := (x % 4294967296).toNat

/-- The flags of `RunFlag` that `RunFlagHandler` writes. -/
structure RunFlagType where
  supervise : Nat
  boost : Nat
  imu : Nat
  led : Nat
  contact : Nat
  second : Nat
  motion : Nat
  us : Nat
  deriving DecidableEq, Repr

/-- The function-local statics of `RunFlagHandler`: one last-due tick per
task. -/
structure RunFlagStatics where
  led : Nat
  _100Hz : Nat
  second : Nat
  imu : Nat
  motion : Nat
  us : Nat
  contact : Nat
  deriving DecidableEq, Repr

/-- Everything `RunFlagHandler` reads or writes: its statics, the global
`RunFlag` and the global variable `US_FREQ`. -/
structure SchedState where
  statics : RunFlagStatics
  RunFlag : RunFlagType
  US_FREQ : Nat
  deriving DecidableEq, Repr

/-- The state at program start: statics and flags zero, `US_FREQ = 40`. -/
def initSched : SchedState :=
  { statics := ⟨0, 0, 0, 0, 0, 0, 0⟩, RunFlag := ⟨0, 0, 0, 0, 0, 0, 0, 0⟩, US_FREQ := 40 }

/-- The body of the macro `FREQ_FLAG` for a period `P`: the new last-due
tick and the new flag.  The subtraction and the addition are `u32`. -/
def freqFlagStep (P tick t flag : Nat) : Nat × Nat :=
  if P ≤ wrapU32 ((tick : Int) - (t : Int)) then
    (wrapU32 ((t : Int) + (P : Int)), 1)
  else
    (t, flag)

/-- The macro `FREQ_FLAG(t, freq)` with the period `TICK_FREQ/(freq)`; it has
no result when `freq` is zero. -/
def FREQ_FLAG (tick t flag freq : Nat) : Option (Nat × Nat) :=
  if freq = 0 then none else some (freqFlagStep (TICK_FREQ / freq) tick t flag)

/-- The function `RunFlagHandler()`; `tick` is the value of `HAL_GetTick()`. -/
def RunFlagHandler (cfg : Config) (tim : TimConfig) (s : SchedState) (tick : Nat) :
    Option SchedState :=
  let s1 : SchedState :=
    if TICK_FREQ / 100 ≤ wrapU32 ((tick : Int) - (s.statics._100Hz : Int)) then
      { s with
        statics := { s.statics with
          _100Hz := wrapU32 ((s.statics._100Hz : Int) + ((TICK_FREQ / 100 : Nat) : Int)) }
        RunFlag := { s.RunFlag with supervise := 1, boost := 1 } }
    else s
  match FREQ_FLAG tick s1.statics.imu s1.RunFlag.imu tim.IMU_UPDATE_FREQ with
  | none => none
  | some r_imu =>
    match FREQ_FLAG tick s1.statics.led s1.RunFlag.led 2 with
    | none => none
    | some r_led =>
      match FREQ_FLAG tick s1.statics.contact s1.RunFlag.contact 500 with
      | none => none
      | some r_contact =>
        match FREQ_FLAG tick s1.statics.second s1.RunFlag.second 1 with
        | none => none
        | some r_second =>
          match FREQ_FLAG tick s1.statics.motion s1.RunFlag.motion cfg.MOTION_PREQ with
          | none => none
          | some r_motion =>
            match FREQ_FLAG tick s1.statics.us s1.RunFlag.us s1.US_FREQ with
            | none => none
            | some r_us =>
              some { s1 with
                statics := { s1.statics with
                  imu := r_imu.1, led := r_led.1, contact := r_contact.1,
                  second := r_second.1, motion := r_motion.1, us := r_us.1 }
                RunFlag := { s1.RunFlag with
                  imu := r_imu.2, led := r_led.2, contact := r_contact.2,
                  second := r_second.2, motion := r_motion.2, us := r_us.2 } }

/-- The periodic tasks of `RunFlagHandler`, named after their last-due
statics. -/
inductive Task where
  | _100Hz
  | imu
  | led
  | contact
  | second
  | motion
  | us
  deriving DecidableEq, Repr

/-- The frequency argument each task is scheduled with. -/
def taskFreq (cfg : Config) (tim : TimConfig) (s : SchedState) : Task → Nat
  | Task._100Hz => 100
  | Task.imu => tim.IMU_UPDATE_FREQ
  | Task.led => 2
  | Task.contact => 500
  | Task.second => 1
  | Task.motion => cfg.MOTION_PREQ
  | Task.us => s.US_FREQ

/-- The period of a task in ticks, `TICK_FREQ/freq`. -/
def taskPeriod (cfg : Config) (tim : TimConfig) (s : SchedState) (task : Task) : Nat :=
  TICK_FREQ / taskFreq cfg tim s task

/-- The last-due static of a task. -/
def lastDue (st : RunFlagStatics) : Task → Nat
  | Task._100Hz => st._100Hz
  | Task.imu => st.imu
  | Task.led => st.led
  | Task.contact => st.contact
  | Task.second => st.second
  | Task.motion => st.motion
  | Task.us => st.us

/-- The due flag of a task (the 100 Hz block raises `supervise` and, with
it, `boost`). -/
def dueFlag (rf : RunFlagType) : Task → Nat
  | Task._100Hz => rf.supervise
  | Task.imu => rf.imu
  | Task.led => rf.led
  | Task.contact => rf.contact
  | Task.second => rf.second
  | Task.motion => rf.motion
  | Task.us => rf.us

/-- The consumer's side of a due flag: the task that owns the flag clears
it, as `MotionCtrlTask` does with `RunFlag.motion = 0`. -/
def consumeFlag (rf : RunFlagType) : Task → RunFlagType
  | Task._100Hz => { rf with supervise := 0 }
  | Task.imu => { rf with imu := 0 }
  | Task.led => { rf with led := 0 }
  | Task.contact => { rf with contact := 0 }
  | Task.second => { rf with second := 0 }
  | Task.motion => { rf with motion := 0 }
  | Task.us => { rf with us := 0 }

/-- Successive calls of `RunFlagHandler`, one per tick value.  After each
call the due flag of the given task in `RunFlag` is read, which gives the
entry of the trace (flag found set or not), and is then cleared by its
consumer.  The result is the final state and the trace. -/
def schedTrace (cfg : Config) (tim : TimConfig) (task : Task) :
    SchedState → List Nat → Option (SchedState × List Bool)
  | s, [] => some (s, [])
  | s, tick :: rest =>
    match RunFlagHandler cfg tim s tick with
    | none => none
    | some s' =>
      match schedTrace cfg tim task
          { s' with RunFlag := consumeFlag s'.RunFlag task } rest with
      | none => none
      | some r => some (r.1, decide (dueFlag s'.RunFlag task ≠ 0) :: r.2)

/-- Constants of a build with a 100 Hz IMU task and a basic timer that
interrupts at 10 kHz and counts from 0 to 999. -/
def tim10k : TimConfig :=
  { IMU_UPDATE_FREQ := 100, BASIC_TIM_FREQ := 10000, BASIC_TIM_PERIOD := 999 }

/-- One task followed through successive `FREQ_FLAG` steps with period `P`
from the last-due tick `t`: the final last-due tick and, call by call,
whether the task was flagged. -/
def taskRun (P : Nat) : Nat → List Nat → Nat × List Bool
  | t, [] => (t, [])
  | t, tick :: rest =>
    ((taskRun P (freqFlagStep P tick t 0).1 rest).1,
     decide (P ≤ wrapU32 ((tick : Int) - (t : Int))) ::
       (taskRun P (freqFlagStep P tick t 0).1 rest).2)

/-- Modelled from the spec: the `MINUS_S32` macro, whose header is not among
the source files.  The spec describes the difference of the overflow counts
as a wrapping subtraction, so it is the difference reduced to `s32`. -/
def MINUS_S32 (a b : Int) : Int := wrapS32 (a - b)

/-- The four hardware reads of lines 65-68 of `GetIntervalCnt`, in program
order: `BasicTimOverflowCount`, `BasicTimer->CNT`, and both once more. -/
structure TimerReads where
  capture_1 : Nat
  cnt_1 : Nat
  capture_2 : Nat
  cnt_2 : Nat
  deriving DecidableEq, Repr

/-- The two `u32` cells behind the pointer arguments of `GetIntervalCnt`. -/
structure IntervalState where
  last_capture_cnt : Nat
  last_cnt : Nat
  deriving DecidableEq, Repr

/-- Lines 65-74: the pair `(capture_1, tim_cnt_1)` after the re-sample
test.  The counter reads are stored in `u16` locals. -/
def sampledPair (r : TimerReads) : Nat × Nat :=
  if r.capture_1 ≠ r.capture_2 then
    (r.capture_2, r.cnt_2 % 65536)
  else
    (r.capture_1, r.cnt_1 % 65536)

/-- The function `GetIntervalCnt(last_capture_cnt, last_cnt)`: the returned
count and the updated cells.  The product and the first sum are `int`
operations, the final subtraction is `u32`. -/
def GetIntervalCnt (tim : TimConfig) (st : IntervalState) (r : TimerReads) :
    Nat × IntervalState :=
  (wrapU32 (wrapS32 (wrapS32 (MINUS_S32 ((sampledPair r).1 : Int) (st.last_capture_cnt : Int) *
        ((tim.BASIC_TIM_PERIOD : Int) + 1)) + ((sampledPair r).2 : Int)) -
      (st.last_cnt : Int)),
   { last_capture_cnt := (sampledPair r).1, last_cnt := (sampledPair r).2 })

/-- The state of the timer interrupt: the file-level `BasicTimOverflowCount`
and the function-local static `cnt2`. -/
structure IrqStatics where
  BasicTimOverflowCount : Nat
  cnt2 : Nat
  deriving DecidableEq, Repr

/-- The function `BasicTIM_IRQHandler(htim)`: the new statics and whether
`SpeedLoop()` was called.  The test is the macro `FREQ(cnt2, MOTION_PREQ)` of
`tim_user.c`, `(++(cnt) >= BASIC_TIM_FREQ/(hz))`. -/
def BasicTIM_IRQHandler (cfg : Config) (tim : TimConfig) (s : IrqStatics) :
    IrqStatics × Bool :=
  if tim.BASIC_TIM_FREQ / cfg.MOTION_PREQ ≤ wrapU32 ((s.cnt2 : Int) + 1) then
    ({ BasicTimOverflowCount := wrapU32 ((s.BasicTimOverflowCount : Int) + 1), cnt2 := 0 },
     true)
  else
    ({ BasicTimOverflowCount := wrapU32 ((s.BasicTimOverflowCount : Int) + 1),
       cnt2 := wrapU32 ((s.cnt2 : Int) + 1) },
     false)

/-- The first `n` interrupts: the statics after them and, interrupt by
interrupt, whether the speed loop was triggered. -/
def irqRun (cfg : Config) (tim : TimConfig) : IrqStatics → Nat → IrqStatics × List Bool
  | s, 0 => (s, [])
  | s, n + 1 =>
    ((BasicTIM_IRQHandler cfg tim (irqRun cfg tim s n).1).1,
     (irqRun cfg tim s n).2 ++ [(BasicTIM_IRQHandler cfg tim (irqRun cfg tim s n).1).2])

/-! ## `MotionCtrlTask` -/

/-- Calls `MotionCtrlTask` makes to its collaborators, in program order. -/
inductive TaskEffect where
  | MotorPIDInit
  | ChassisMotorDriverEnable (enable : Bool)
  | InfraredDrop_InitData (calibrating : Bool)
  | SpeedLoop_SetTargetSpeed (cmd : CSpeedVW)
  deriving DecidableEq, Repr

/-- The function-local statics of `MotionCtrlTask`. -/
structure TaskStatics where
  motor_enable_flag : Nat
  drop_init_flag : Nat
  drop_init_cnt : Nat
  deriving DecidableEq, Repr

/-- What `MotionCtrlTask` works on: its statics, the flag `RunFlag.motion`
and the state of the motion controller. -/
structure TaskState where
  statics : TaskStatics
  RunFlag_motion : Nat
  motion : MotionStatics
  deriving DecidableEq, Repr

/-- The state at program start: `motor_enable_flag = 1`,
`drop_init_flag = 1`, `drop_init_cnt = 0`, flag clear. -/
def initTask : TaskState :=
  { statics := ⟨1, 1, 0⟩, RunFlag_motion := 0, motion := initMotion }

/-- The function `MotionCtrlTask()`: the state it leaves and the calls it
made.  It has no result when the controller cycle has none. -/
def MotionCtrlTask (cfg : Config) (s : TaskState) (inp : CycleInput) :
    Option (TaskState × List TaskEffect) :=
  if s.RunFlag_motion = 0 then
    some (s, [])
  else
    let e1 : List TaskEffect :=
      if s.statics.motor_enable_flag ≠ 0 then
        [TaskEffect.MotorPIDInit, TaskEffect.ChassisMotorDriverEnable true]
      else []
    let m : Nat := if s.statics.motor_enable_flag ≠ 0 then 0 else s.statics.motor_enable_flag
    if s.statics.drop_init_flag ≠ 0 then
      if s.statics.drop_init_cnt < 500 then
        some ({ statics := ⟨m, s.statics.drop_init_flag, incU16 s.statics.drop_init_cnt⟩,
                RunFlag_motion := 0, motion := s.motion },
              e1 ++ [TaskEffect.InfraredDrop_InitData true])
      else
        match ChassisMovingController cfg s.motion inp with
        | none => none
        | some r =>
          some ({ statics := ⟨m, 0, s.statics.drop_init_cnt⟩,
                  RunFlag_motion := 0, motion := r.1 },
                e1 ++ [TaskEffect.InfraredDrop_InitData false,
                       TaskEffect.SpeedLoop_SetTargetSpeed r.2])
    else
      match ChassisMovingController cfg s.motion inp with
      | none => none
      | some r =>
        some ({ statics := ⟨m, s.statics.drop_init_flag, s.statics.drop_init_cnt⟩,
                RunFlag_motion := 0, motion := r.1 },
              e1 ++ [TaskEffect.SpeedLoop_SetTargetSpeed r.2])

/-- Successive invocations of `MotionCtrlTask`.  Each entry says whether the
scheduler has raised `RunFlag.motion` since the previous invocation and what
the controller would read.  The result is the final state and the calls made
by each invocation. -/
def motionTaskRun (cfg : Config) :
    TaskState → List (Bool × CycleInput) → Option (TaskState × List (List TaskEffect))
  | s, [] => some (s, [])
  | s, c :: rest =>
    match MotionCtrlTask cfg
        { s with RunFlag_motion := if c.1 then 1 else s.RunFlag_motion } c.2 with
    | none => none
    | some r =>
      match motionTaskRun cfg r.1 rest with
      | none => none
      | some q => some (q.1, r.2 :: q.2)

/-- The statics of `MotionCtrlTask` after `j` invocations that found the flag
set, as a closed form to compare the code against. -/
def taskStaticsAfter (j : Nat) : TaskStatics :=
  if j = 0 then ⟨1, 1, 0⟩ else if j ≤ 500 then ⟨0, 1, j⟩ else ⟨0, 0, 500⟩

/-- The call is a command forwarded to the speed loop. -/
def TaskEffect.isForward : TaskEffect → Bool
  | TaskEffect.SpeedLoop_SetTargetSpeed _ => true
  | _ => false

/-! ## Arithmetic facts -/

theorem wrapS32_of_fits {x : Int} (h : fitsS32 x) : wrapS32 x = x := by
  unfold fitsS32 at h
  unfold wrapS32
  omega

theorem wrapS32_fits (x : Int) : fitsS32 (wrapS32 x) := by
  unfold fitsS32 wrapS32
  omega

/-- Truncating remainder by a positive modulus: quotient identity and the
sign-following bounds. -/
theorem tmod_spec (a m : Int) (hm : 0 < m) :
    m * Int.tdiv a m + Int.tmod a m = a ∧
    (0 ≤ a → 0 ≤ Int.tmod a m ∧ Int.tmod a m < m) ∧
    (a ≤ 0 → -m < Int.tmod a m ∧ Int.tmod a m ≤ 0) := by
  refine ⟨Int.tdiv_add_tmod a m, ?_, ?_⟩
  · intro ha
    exact ⟨Int.tmod_nonneg m ha, Int.tmod_lt_of_pos a hm⟩
  · intro ha
    have h1 : Int.tmod (-a) m = -(Int.tmod a m) := by
      rw [Int.tmod_def, Int.tmod_def, Int.neg_tdiv, Int.mul_neg]
      omega
    have h2 : 0 ≤ Int.tmod (-a) m := Int.tmod_nonneg m (by omega)
    have h3 : Int.tmod (-a) m < m := Int.tmod_lt_of_pos (-a) hm
    omega

theorem DEGREE_360 : DEGREE 360 = 360000 := by decide

theorem W_NOISE_TH_eq : W_NOISE_TH = 250 := by decide

/-! ## Odometry: heading -/

/-- Lines 78-84 compute the floored remainder of the 32-bit sum. -/
theorem thetaWrap_spec (theta delta : Int) :
    0 ≤ thetaWrap theta delta ∧ thetaWrap theta delta < DEGREE 360 ∧
    thetaWrap theta delta = wrapS32 (theta + delta) % DEGREE 360 := by
  unfold thetaWrap
  simp only [DEGREE_360]
  generalize wrapS32 (theta + delta) = t
  obtain ⟨hq, hpos, hneg⟩ := tmod_spec t 360000 (by decide)
  generalize Int.tmod t 360000 = r at *
  generalize Int.tdiv t 360000 = q at *
  split_ifs with hr
  · have hw : wrapS32 (r + 360000) = r + 360000 := by
      apply wrapS32_of_fits
      unfold fitsS32
      omega
    rw [hw]
    omega
  · omega

/-- The angular delta of one call is at most 2147 units in magnitude. -/
theorem thetaStep_delta_bound (rem sW period : Int) :
    -2147 ≤ (thetaStep rem sW period).1 ∧ (thetaStep rem sW period).1 ≤ 2147 := by
  unfold thetaStep
  split_ifs
  · simp
  · have hf := wrapS32_fits (wrapS32 (sW * period) + rem)
    obtain ⟨hq, hpos, hneg⟩ :=
      tmod_spec (wrapS32 (wrapS32 (sW * period) + rem)) 1000000 (by decide)
    unfold fitsS32 at hf
    simp only []
    omega

/-- Below the noise threshold the angular step is zero and the remainder is
kept. -/
theorem thetaStep_noise (rem sW period : Int) (h : |sW| < W_NOISE_TH) :
    thetaStep rem sW period = (0, rem) := by
  rw [W_NOISE_TH_eq] at h
  have hc : cabs sW < W_NOISE_TH := by
    rw [W_NOISE_TH_eq]
    unfold cabs
    rw [abs_lt] at h
    split_ifs with hs
    · unfold wrapS32
      omega
    · omega
  unfold thetaStep
  rw [if_pos hc]

/-- A heading already inside one turn is left alone by a zero delta. -/
theorem thetaWrap_zero (theta : Int) (h0 : 0 ≤ theta) (h1 : theta < DEGREE 360) :
    thetaWrap theta 0 = theta := by
  obtain ⟨_, _, h⟩ := thetaWrap_spec theta 0
  rw [h]
  rw [DEGREE_360] at h1 ⊢
  have hw : wrapS32 (theta + 0) = theta := by
    rw [Int.add_zero]
    apply wrapS32_of_fits
    unfold fitsS32
    omega
  rw [hw]
  omega

/-! ## Odometry: distance -/

/-- One call without overflow conserves `velocity * period` between the
accumulator and the carried remainder. -/
theorem CarLocationUpdate_conserves (st : LocationStatics) (d : CDistanceValue)
    (v : CSpeedVW) (p : Int) (h : linearNoOverflow st d v p) :
    1000000 * ((CarLocationUpdate st d v p).2.distance - d.distance) +
        (CarLocationUpdate st d v p).1.delta_distance_remainder =
      st.delta_distance_remainder + v.sV * p ∧
    -1000000 < (CarLocationUpdate st d v p).1.delta_distance_remainder ∧
    (CarLocationUpdate st d v p).1.delta_distance_remainder < 1000000 := by
  obtain ⟨h1, h2, h3⟩ := h
  have hs : distanceSum st.delta_distance_remainder v.sV p =
      v.sV * p + st.delta_distance_remainder := by
    unfold distanceSum
    rw [wrapS32_of_fits h1, wrapS32_of_fits h2]
  unfold distanceStep at h3
  simp only [CarLocationUpdate, distanceStep]
  rw [hs] at h3 ⊢
  rw [wrapS32_of_fits h3]
  obtain ⟨hq, hpos, hneg⟩ :=
    tmod_spec (v.sV * p + st.delta_distance_remainder) 1000000 (by decide)
  generalize Int.tmod (v.sV * p + st.delta_distance_remainder) 1000000 = r at *
  generalize Int.tdiv (v.sV * p + st.delta_distance_remainder) 1000000 = q at *
  generalize v.sV * p = vp at *
  omega

/-- A run without overflow conserves the sum of the `velocity * period`
products. -/
theorem CarLocationRun_conserves (inputs : List (CSpeedVW × Int)) :
    ∀ s : LocationStatics × CDistanceValue,
      linearNoOverflowRun s inputs = true →
      -1000000 < s.1.delta_distance_remainder →
      s.1.delta_distance_remainder < 1000000 →
      1000000 * ((CarLocationRun s inputs).2.distance - s.2.distance) +
          (CarLocationRun s inputs).1.delta_distance_remainder =
        s.1.delta_distance_remainder + (inputs.map (fun i => i.1.sV * i.2)).sum ∧
      -1000000 < (CarLocationRun s inputs).1.delta_distance_remainder ∧
      (CarLocationRun s inputs).1.delta_distance_remainder < 1000000 := by
  induction inputs with
  | nil =>
    intro s _ hlo hhi
    simp [CarLocationRun, hlo, hhi]
  | cons i rest ih =>
    intro s hno _ _
    simp only [linearNoOverflowRun, Bool.and_eq_true, decide_eq_true_eq] at hno
    obtain ⟨hstep, hrest⟩ := hno
    obtain ⟨hc, hlo, hhi⟩ := CarLocationUpdate_conserves s.1 s.2 i.1 i.2 hstep
    obtain ⟨ihc, ihlo, ihhi⟩ := ih (CarLocationUpdate s.1 s.2 i.1 i.2) hrest hlo hhi
    simp only [CarLocationRun, List.map_cons, List.sum_cons]
    refine ⟨?_, ihlo, ihhi⟩
    omega

/-- With a constant velocity and period the products sum to `v * p * n`. -/
theorem sum_const_products (v p : Int) (inputs : List (CSpeedVW × Int))
    (h : ∀ i ∈ inputs, i.1.sV = v ∧ i.2 = p) :
    (inputs.map (fun i => i.1.sV * i.2)).sum = v * p * (inputs.length : Int) := by
  induction inputs with
  | nil => simp
  | cons i rest ih =>
    have hi := h i (List.mem_cons_self i rest)
    have hr := ih (fun j hj => h j (List.mem_cons_of_mem i hj))
    simp only [List.map_cons, List.sum_cons, List.length_cons, hr, hi.1, hi.2]
    push_cast
    ring

/-! ## Claims on the odometry integrator -/

/-- C1 (as stated, refuted): with the heading at the top of the `s32` range
the addition of line 78 wraps, and the stored heading `276352` is not the
floored remainder `83648` of the exact sum of old heading and angular delta. -/
theorem C1_exact_sum_counterexample :
    (CarLocationUpdate ⟨0, 0⟩ ⟨0, 2147483647⟩ ⟨0, 1000⟩ 1000).2.theta = 276352 ∧
    (thetaStep 0 1000 1000).1 = 1 ∧
    (2147483647 + (thetaStep 0 1000 1000).1) % DEGREE 360 = 83648 := by
  decide

/-- C1 (amended): after every call of `CarLocationUpdate` the stored heading
lies in `[0, DEGREE(360))` and is the floored remainder modulo `DEGREE(360)`
of the 32-bit sum of old heading and truncated angular delta; whenever that
sum is representable as `s32` (in particular for every old heading already in
`[0, DEGREE(360))`) it is the floored remainder of the exact sum. -/
theorem C1_heading_floored_modulo (st : LocationStatics) (d : CDistanceValue)
    (v : CSpeedVW) (p : Int) :
    0 ≤ (CarLocationUpdate st d v p).2.theta ∧
    (CarLocationUpdate st d v p).2.theta < DEGREE 360 ∧
    (CarLocationUpdate st d v p).2.theta =
      wrapS32 (d.theta + (thetaStep st.delta_theta_remainder v.sW p).1) % DEGREE 360 ∧
    (fitsS32 (d.theta + (thetaStep st.delta_theta_remainder v.sW p).1) →
      (CarLocationUpdate st d v p).2.theta =
        (d.theta + (thetaStep st.delta_theta_remainder v.sW p).1) % DEGREE 360) ∧
    (0 ≤ d.theta ∧ d.theta < DEGREE 360 →
      (CarLocationUpdate st d v p).2.theta =
        (d.theta + (thetaStep st.delta_theta_remainder v.sW p).1) % DEGREE 360) := by
  obtain ⟨h0, h1, h2⟩ :=
    thetaWrap_spec d.theta (thetaStep st.delta_theta_remainder v.sW p).1
  have hfit : fitsS32 (d.theta + (thetaStep st.delta_theta_remainder v.sW p).1) →
      (CarLocationUpdate st d v p).2.theta =
        (d.theta + (thetaStep st.delta_theta_remainder v.sW p).1) % DEGREE 360 := by
    intro hf
    show thetaWrap d.theta (thetaStep st.delta_theta_remainder v.sW p).1 = _
    rw [h2, wrapS32_of_fits hf]
  refine ⟨h0, h1, h2, hfit, ?_⟩
  rintro ⟨hd0, hd1⟩
  apply hfit
  have hb := thetaStep_delta_bound st.delta_theta_remainder v.sW p
  rw [DEGREE_360] at hd1
  unfold fitsS32
  omega

/-- C1 (instance): at 20 degrees per second over one millisecond the heading
359.990 degrees wraps to 0.010 degrees, and at -20 degrees per second the
heading 0.005 degrees wraps to 359.985 degrees. -/
theorem C1_heading_floored_modulo_witness :
    (0 ≤ (359990 : Int) ∧ (359990 : Int) < DEGREE 360) ∧
    (CarLocationUpdate ⟨0, 0⟩ ⟨0, 359990⟩ ⟨0, 20000⟩ 1000).2.theta =
      (359990 + (thetaStep 0 20000 1000).1) % DEGREE 360 ∧
    (CarLocationUpdate ⟨0, 0⟩ ⟨0, 359990⟩ ⟨0, 20000⟩ 1000).2.theta = 10 ∧
    (CarLocationUpdate ⟨0, 0⟩ ⟨0, 5⟩ ⟨0, -20000⟩ 1000).2.theta = 359985 :=
  ⟨by decide,
   (C1_heading_floored_modulo ⟨0, 0⟩ ⟨0, 359990⟩ ⟨0, 20000⟩ 1000).2.2.2.2 (by decide),
   by decide, by decide⟩

/-- C2: with a constant linear velocity `v` and period `p`, a zero initial
distance remainder and no 32-bit overflow on the linear path, the distance
accumulated by `n` successive calls differs from `v * p * n / 1000000` by
less than one unit, for every `n`. -/
theorem C2_constant_velocity_distance (s : LocationStatics × CDistanceValue)
    (v p : Int) (inputs : List (CSpeedVW × Int))
    (hrem : s.1.delta_distance_remainder = 0)
    (hconst : ∀ i ∈ inputs, i.1.sV = v ∧ i.2 = p)
    (hno : linearNoOverflowRun s inputs = true) :
    |(((CarLocationRun s inputs).2.distance - s.2.distance : Int) : ℚ) -
        ((v * p * (inputs.length : Int) : Int) : ℚ) / 1000000| < 1 := by
  obtain ⟨hc, hlo, hhi⟩ :=
    CarLocationRun_conserves inputs s hno (by omega) (by omega)
  rw [sum_const_products v p inputs hconst, hrem] at hc
  have hint : |1000000 * ((CarLocationRun s inputs).2.distance - s.2.distance) -
      v * p * (inputs.length : Int)| < 1000000 := by
    rw [abs_lt]
    constructor <;> omega
  have hq : |(1000000 : ℚ) * (((CarLocationRun s inputs).2.distance - s.2.distance : Int) : ℚ) -
      ((v * p * (inputs.length : Int) : Int) : ℚ)| < 1000000 := by
    exact_mod_cast hint
  have hrw : (((CarLocationRun s inputs).2.distance - s.2.distance : Int) : ℚ) -
        ((v * p * (inputs.length : Int) : Int) : ℚ) / 1000000 =
      ((1000000 : ℚ) * (((CarLocationRun s inputs).2.distance - s.2.distance : Int) : ℚ) -
        ((v * p * (inputs.length : Int) : Int) : ℚ)) / 1000000 := by
    ring
  rw [hrw, abs_div, abs_of_pos (by norm_num : (0 : ℚ) < 1000000),
    div_lt_one (by norm_num : (0 : ℚ) < 1000000)]
  exact hq

/-- C2 (instance): seven calls at 333 units/s with a 1000 microsecond period
from the zero state. -/
theorem C2_constant_velocity_distance_witness :
    |(((CarLocationRun (⟨0, 0⟩, ⟨0, 0⟩)
          (List.replicate 7 (⟨333, 0⟩, 1000))).2.distance - 0 : Int) : ℚ) -
        ((333 * 1000 * ((List.replicate 7
          ((⟨333, 0⟩ : CSpeedVW), (1000 : Int))).length : Int) : Int) : ℚ) / 1000000| < 1 :=
  C2_constant_velocity_distance (⟨0, 0⟩, ⟨0, 0⟩) 333 1000
    (List.replicate 7 (⟨333, 0⟩, 1000)) rfl (by decide) (by decide)

/-- C3: from a heading in `[0, DEGREE(360))`, any sequence of calls whose
angular velocity satisfies `|sW| < W_NOISE_TH` leaves the heading and the
carried angular remainder unchanged, whatever the linear velocities and
periods are. -/
theorem C3_noise_gate_keeps_heading (inputs : List (CSpeedVW × Int)) :
    ∀ s : LocationStatics × CDistanceValue,
      0 ≤ s.2.theta → s.2.theta < DEGREE 360 →
      (∀ i ∈ inputs, |i.1.sW| < W_NOISE_TH) →
      (CarLocationRun s inputs).2.theta = s.2.theta ∧
      (CarLocationRun s inputs).1.delta_theta_remainder = s.1.delta_theta_remainder := by
  induction inputs with
  | nil =>
    intro s _ _ _
    exact ⟨rfl, rfl⟩
  | cons i rest ih =>
    intro s h0 h1 hw
    have hi := hw i (List.mem_cons_self i rest)
    have hstep := thetaStep_noise s.1.delta_theta_remainder i.1.sW i.2 hi
    have ht : (CarLocationUpdate s.1 s.2 i.1 i.2).2.theta = s.2.theta := by
      show thetaWrap s.2.theta (thetaStep s.1.delta_theta_remainder i.1.sW i.2).1 = _
      rw [hstep]
      exact thetaWrap_zero s.2.theta h0 h1
    have hr : (CarLocationUpdate s.1 s.2 i.1 i.2).1.delta_theta_remainder =
        s.1.delta_theta_remainder := by
      show (thetaStep s.1.delta_theta_remainder i.1.sW i.2).2 = _
      rw [hstep]
    obtain ⟨iht, ihr⟩ := ih (CarLocationUpdate s.1 s.2 i.1 i.2)
      (by rw [ht]; exact h0) (by rw [ht]; exact h1)
      (fun j hj => hw j (List.mem_cons_of_mem i hj))
    simp only [CarLocationRun]
    exact ⟨iht.trans ht, ihr.trans hr⟩

/-- C3 (instance): three calls with angular rates 249, -249 and 0 keep the
heading 123456 and the remainder 777. -/
theorem C3_noise_gate_keeps_heading_witness :
    (CarLocationRun (⟨777, 0⟩, ⟨0, 123456⟩)
        [(⟨500, 249⟩, 1000), (⟨-3, -249⟩, 2000000), (⟨0, 0⟩, 17)]).2.theta = 123456 ∧
    (CarLocationRun (⟨777, 0⟩, ⟨0, 123456⟩)
        [(⟨500, 249⟩, 1000), (⟨-3, -249⟩, 2000000), (⟨0, 0⟩, 17)]).1.delta_theta_remainder
      = 777 :=
  C3_noise_gate_keeps_heading
    [(⟨500, 249⟩, 1000), (⟨-3, -249⟩, 2000000), (⟨0, 0⟩, 17)]
    (⟨777, 0⟩, ⟨0, 123456⟩) (by decide) (by decide) (by decide)

/-! ## The protection state machine -/

/-- A hazard call made while protecting, or with a forward or rotating
target, returns: it protects, and commands the creep until the timeout
counter has passed `3 * freq`, the stop afterwards. -/
theorem handler_hazard (st : HandlerStatics) (target : CSpeedVW) (drop freq : Nat)
    (hd : drop ≠ 0)
    (hp : st.is_protect = true ∨ target.sV > 0 ∨ target.sW ≠ 0) :
    ∃ r, DropAndCollisionSensorHandler st target drop freq = some r ∧
      r.ret = true ∧ r.statics.is_protect = true ∧
      (r.statics.dealy_cnt =
        if target.sV > 0 ∨ target.sW ≠ 0 then 0 else st.dealy_cnt) ∧
      (r.statics.time_cnt =
        if (st.time_cnt : Int) > 3 * (freq : Int) then st.time_cnt
        else incU16 st.time_cnt) ∧
      (r.target =
        if (st.time_cnt : Int) > 3 * (freq : Int) then ⟨0, 0⟩ else ⟨-150, 0⟩) := by
  unfold DropAndCollisionSensorHandler
  by_cases hm : target.sV > 0 ∨ target.sW ≠ 0
  · by_cases ht : (st.time_cnt : Int) > 3 * (freq : Int)
    · simp [hd, hm, ht]
    · simp [hd, hm, ht]
  · have hpt : st.is_protect = true := by
      rcases hp with h | h
      · exact h
      · exact absurd h hm
    by_cases ht : (st.time_cnt : Int) > 3 * (freq : Int)
    · simp [hd, hm, ht, hpt]
    · simp [hd, hm, ht, hpt]

/-- One handler call keeps the relation between the protecting flag, the
timeout counter and the commanded target. -/
theorem handler_keeps_inv (st : HandlerStatics) (target : CSpeedVW) (drop freq : Nat)
    (r : HandlerResult)
    (h : DropAndCollisionSensorHandler st target drop freq = some r)
    (h1 : st.is_protect = false → st.time_cnt = 0)
    (h2 : st.is_protect = true → target = ⟨-150, 0⟩ ∨ target = ⟨0, 0⟩) :
    r.ret = r.statics.is_protect ∧
    (r.statics.is_protect = false → r.statics.time_cnt = 0) ∧
    (r.statics.is_protect = true → r.target = ⟨-150, 0⟩ ∨ r.target = ⟨0, 0⟩) := by
  by_cases hd : drop ≠ 0
  · by_cases hp : st.is_protect = true ∨ target.sV > 0 ∨ target.sW ≠ 0
    · obtain ⟨r', hr', hret, hprot, _, _, htgt⟩ := handler_hazard st target drop freq hd hp
      rw [hr'] at h
      cases h
      refine ⟨by rw [hret, hprot], ?_, ?_⟩
      · intro hf
        rw [hprot] at hf
        cases hf
      · intro _
        rw [htgt]
        split_ifs
        · exact Or.inr rfl
        · exact Or.inl rfl
    · have hnp : st.is_protect = false := by
        cases hst : st.is_protect
        · rfl
        · exact absurd (Or.inl hst) hp
      have hm : ¬ (target.sV > 0 ∨ target.sW ≠ 0) := fun hm => hp (Or.inr hm)
      unfold DropAndCollisionSensorHandler at h
      simp [hd, hm, hnp] at h
      subst h
      simp [hnp, h1 hnp]
  · have hd0 : drop = 0 := by omega
    unfold DropAndCollisionSensorHandler at h
    cases hst : st.is_protect
    · simp [hd0, hst] at h
      subst h
      simp [hst, h1 hst]
    · by_cases hz : target.sV = 0
      · simp [hd0, hst, hz] at h
      · by_cases hx : (incU16 st.dealy_cnt : Int) >
            cabs (Int.tdiv (20 * (freq : Int)) target.sV)
        · simp [hd0, hst, hz, hx] at h
          subst h
          simp
        · simp [hd0, hst, hz, hx] at h
          subst h
          simp [hst]
          exact h2 hst

theorem ProtectInv_init : ProtectInv initMotion := by
  unfold ProtectInv initMotion
  simp

theorem ProtectInv_setVW (s : MotionStatics) (v w : Int) (t : Nat) (h : ProtectInv s) :
    ProtectInv (SetVWValue s v w t) := h

theorem ProtectInv_sensorCheck (cfg : Config) (s s2 : MotionStatics) (drop : Nat)
    (h : ProtectInv s) (hs : sensorCheck cfg s drop = some s2) : ProtectInv s2 := by
  obtain ⟨ha, hb, hc⟩ := h
  unfold sensorCheck at hs
  by_cases hf : (FREQ cfg s.stop_cnt 500).2 = true
  · rw [if_pos hf] at hs
    cases hr : DropAndCollisionSensorHandler s.handler s.target_vw drop 500 with
    | none => rw [hr] at hs; cases hs
    | some r =>
      rw [hr] at hs
      simp only [Option.some.injEq] at hs
      subst hs
      exact handler_keeps_inv s.handler s.target_vw drop 500 r hr hb hc
  · rw [if_neg hf] at hs
    simp only [Option.some.injEq] at hs
    subst hs
    exact ⟨ha, hb, hc⟩

theorem ProtectInv_acceptStaged (s : MotionStatics) (h : ProtectInv s) :
    ProtectInv (acceptStaged s) := by
  obtain ⟨ha, hb, hc⟩ := h
  unfold acceptStaged
  cases hp : s.is_protect
  · by_cases hu : s.VW_Update ≠ 0
    · simp only [Bool.not_false, if_true, if_pos hu]
      refine ⟨by simpa using ha.symm.trans hp |>.symm, hb, ?_⟩
      intro hh
      rw [← ha, hp] at hh
      cases hh
    · simp only [Bool.not_false, if_true, if_neg hu]
      exact ⟨ha, hb, hc⟩
  · simp only [Bool.not_true, Bool.false_eq_true, if_false]
    exact ⟨ha, hb, hc⟩

theorem ProtectInv_errOverride (cfg : Config) (s : MotionStatics) (flags : Nat)
    (h : ProtectInv s) : ProtectInv (errOverride cfg s flags) := by
  obtain ⟨ha, hb, hc⟩ := h
  unfold errOverride
  split_ifs
  · exact ⟨ha, hb, fun _ => Or.inr rfl⟩
  · exact ⟨ha, hb, hc⟩

theorem ProtectInv_cycle (cfg : Config) (s : MotionStatics) (inp : CycleInput)
    (s' : MotionStatics) (out : CSpeedVW) (h : ProtectInv s)
    (hc : ChassisMovingController cfg s inp = some (s', out)) : ProtectInv s' := by
  unfold ChassisMovingController at hc
  cases hs : sensorCheck cfg (locationStage cfg s inp) inp.drop with
  | none => rw [hs] at hc; cases hc
  | some s2 =>
    rw [hs] at hc
    simp only [Option.some.injEq, Prod.mk.injEq] at hc
    rw [← hc.1]
    have h1 : ProtectInv (locationStage cfg s inp) := h
    exact ProtectInv_errOverride cfg _ _
      (ProtectInv_acceptStaged _ (ProtectInv_sensorCheck cfg _ s2 inp.drop h1 hs))

/-- Every reachable state satisfies the protection relation. -/
theorem Reachable_ProtectInv (cfg : Config) (s : MotionStatics) (h : Reachable cfg s) :
    ProtectInv s := by
  induction h with
  | init => exact ProtectInv_init
  | setVW s v w t _ ih => exact ProtectInv_setVW s v w t ih
  | cycle s inp s' out _ hc ih => exact ProtectInv_cycle cfg s inp s' out ih hc

/-- Completed runs of cycles stay inside the reachable states. -/
theorem Reachable_runCycles (cfg : Config) (inputs : List CycleInput) :
    ∀ (s : MotionStatics) (r : MotionStatics × List CSpeedVW),
      Reachable cfg s → runCycles cfg s inputs = some r → Reachable cfg r.1 := by
  induction inputs with
  | nil =>
    intro s r hs h
    simp only [runCycles, Option.some.injEq] at h
    subst h
    exact hs
  | cons i rest ih =>
    intro s r hs h
    unfold runCycles at h
    cases hc : ChassisMovingController cfg s i with
    | none => rw [hc] at h; cases h
    | some c =>
      rw [hc] at h
      simp only [] at h
      cases hq : runCycles cfg c.1 rest with
      | none => rw [hq] at h; cases h
      | some q =>
        rw [hq] at h
        simp only [Option.some.injEq] at h
        subst h
        exact ih c.1 q (Reachable.cycle s i c.1 c.2 hs hc) hq

/-- A cycle whose sensor check runs, reports a hazard, and finds protection
active or the target forward or rotating: it completes protecting, leaves the
staged command alone and forwards the creep or the stop. -/
theorem cycle_hazard_protects (cfg : Config) (s : MotionStatics) (inp : CycleInput)
    (hf : (FREQ cfg s.stop_cnt 500).2 = true) (hd : inp.drop ≠ 0)
    (hp : s.handler.is_protect = true ∨ s.target_vw.sV > 0 ∨ s.target_vw.sW ≠ 0) :
    ∃ s' out, ChassisMovingController cfg s inp = some (s', out) ∧
      s'.is_protect = true ∧ s'.handler.is_protect = true ∧
      s'.VW_Update = s.VW_Update ∧ s'.TargetSpeed = s.TargetSpeed ∧
      s'.target_vw = out ∧
      out = (if MotionCheckErr cfg inp.err_flags ≠ 0 then ⟨0, 0⟩
             else if (s.handler.time_cnt : Int) > 3 * ((500 : Nat) : Int) then ⟨0, 0⟩
             else ⟨-150, 0⟩) := by
  obtain ⟨r, hr, hret, hprot, _, _, htgt⟩ :=
    handler_hazard s.handler s.target_vw inp.drop 500 hd hp
  have hs : sensorCheck cfg (locationStage cfg s inp) inp.drop =
      some { locationStage cfg s inp with
        stop_cnt := 0, handler := r.statics, target_vw := r.target, is_protect := r.ret } := by
    unfold sensorCheck
    have hf' : (FREQ cfg (locationStage cfg s inp).stop_cnt 500).2 = true := hf
    rw [if_pos hf']
    have hr' : DropAndCollisionSensorHandler (locationStage cfg s inp).handler
        (locationStage cfg s inp).target_vw inp.drop 500 = some r := hr
    rw [hr']
  unfold ChassisMovingController
  rw [hs]
  refine ⟨_, _, rfl, ?_, ?_, ?_, ?_, rfl, ?_⟩
  · unfold errOverride acceptStaged
    split_ifs <;> simp_all
  · unfold errOverride acceptStaged
    split_ifs <;> simp_all
  · unfold errOverride acceptStaged
    split_ifs <;> simp_all [locationStage]
  · unfold errOverride acceptStaged
    split_ifs <;> simp_all [locationStage]
  · unfold errOverride acceptStaged
    simp only [hret, Bool.not_true, Bool.false_eq_true, if_false]
    by_cases he : MotionCheckErr cfg inp.err_flags ≠ 0
    · rw [if_pos he, if_pos he]
    · rw [if_neg he, if_neg he]
      exact htgt

/-! ## Claims on the protection state machine -/

/-- C4: in every reachable state, a handler call that sees a hazard while
the active command has `sV > 0` or `sW != 0` returns `true` and leaves the
active command at exactly `sV = -150`, `sW = 0`; the controller cycle in
which that call happens ends protecting. -/
theorem C4_hazard_forces_reverse_creep (cfg : Config) (s : MotionStatics)
    (hreach : Reachable cfg s) (drop freq : Nat) (hd : drop ≠ 0)
    (hm : s.target_vw.sV > 0 ∨ s.target_vw.sW ≠ 0) :
    (∃ r, DropAndCollisionSensorHandler s.handler s.target_vw drop freq = some r ∧
      r.target = ⟨-150, 0⟩ ∧ r.ret = true ∧ r.statics.is_protect = true) ∧
    (∀ inp : CycleInput, inp.drop = drop → (FREQ cfg s.stop_cnt 500).2 = true →
      ∃ s' out, ChassisMovingController cfg s inp = some (s', out) ∧
        s'.is_protect = true ∧
        out = (if MotionCheckErr cfg inp.err_flags ≠ 0 then ⟨0, 0⟩ else ⟨-150, 0⟩)) := by
  obtain ⟨_, hb, hc⟩ := Reachable_ProtectInv cfg s hreach
  have hnp : s.handler.is_protect = false := by
    cases hp : s.handler.is_protect
    · rfl
    · exfalso
      rcases hc hp with h | h <;> rw [h] at hm <;> simp at hm
  have ht : ¬ ((s.handler.time_cnt : Int) > 3 * (freq : Int)) := by
    rw [hb hnp]
    push_cast
    omega
  have ht500 : ¬ ((s.handler.time_cnt : Int) > 3 * ((500 : Nat) : Int)) := by
    rw [hb hnp]
    decide
  constructor
  · obtain ⟨r, hr, hret, hprot, _, _, htgt⟩ :=
      handler_hazard s.handler s.target_vw drop freq hd (Or.inr hm)
    rw [if_neg ht] at htgt
    exact ⟨r, hr, htgt, hret, hprot⟩
  · intro inp hdrop hf
    obtain ⟨s', out, hcyc, hp1, _, _, _, _, hout⟩ :=
      cycle_hazard_protects cfg s inp hf (by rw [hdrop]; exact hd) (Or.inr hm)
    rw [if_neg ht500] at hout
    exact ⟨s', out, hcyc, hp1, hout⟩

/-- C4 (instance): the state reached at 500 Hz by staging the forward
command `(100, 0)` and running one hazard-free cycle; the next sensor byte
is `1`. -/
theorem C4_hazard_forces_reverse_creep_witness :
    (∃ r, DropAndCollisionSensorHandler forwardState.handler forwardState.target_vw 1 500
        = some r ∧
      r.target = ⟨-150, 0⟩ ∧ r.ret = true ∧ r.statics.is_protect = true) ∧
    (∀ inp : CycleInput, inp.drop = 1 → (FREQ cfg500 forwardState.stop_cnt 500).2 = true →
      ∃ s' out, ChassisMovingController cfg500 forwardState inp = some (s', out) ∧
        s'.is_protect = true ∧
        out = (if MotionCheckErr cfg500 inp.err_flags ≠ 0 then ⟨0, 0⟩ else ⟨-150, 0⟩)) :=
  C4_hazard_forces_reverse_creep cfg500 forwardState
    (Reachable_runCycles cfg500 [quietInput 0 0] (SetVWValue initMotion 100 0 0)
      (forwardState, [⟨100, 0⟩])
      (Reachable.setVW initMotion 100 0 0 Reachable.init) (by decide))
    1 500 (by decide) (Or.inl (by decide))

/-- A run of hazard calls started while protecting, or with a forward or
rotating target: the timeout counter climbs to `3 * freq + 1` and stays
there; the command is the creep while the counter still climbs and the stop
afterwards. -/
theorem handlerRun_hazard (freq : Nat) (hfreq : 3 * freq + 1 < 65536) (rest : List Nat) :
    ∀ (r : HandlerResult) (d : Nat), d ≠ 0 → (∀ x ∈ rest, x ≠ 0) →
      (r.statics.is_protect = true ∨ r.target.sV > 0 ∨ r.target.sW ≠ 0) →
      r.statics.time_cnt ≤ 3 * freq + 1 →
      ∃ r', handlerRun freq r (d :: rest) = some r' ∧
        r'.ret = true ∧ r'.statics.is_protect = true ∧
        r'.statics.time_cnt = min (r.statics.time_cnt + (rest.length + 1)) (3 * freq + 1) ∧
        r'.target = (if r.statics.time_cnt + (rest.length + 1) ≤ 3 * freq + 1
          then ⟨-150, 0⟩ else ⟨0, 0⟩) := by
  induction rest with
  | nil =>
    intro r d hd _ hp ht
    obtain ⟨r1, hr1, hret, hprot, _, htime, htgt⟩ :=
      handler_hazard r.statics r.target d freq hd hp
    refine ⟨r1, ?_, hret, hprot, ?_, ?_⟩
    · simp only [handlerRun, hr1]
    · rw [htime]
      unfold incU16
      simp only [List.length_nil]
      split_ifs with hc
      · push_cast at hc
        omega
      · push_cast at hc
        rw [Nat.mod_eq_of_lt (by omega)]
        omega
    · rw [htgt]
      simp only [List.length_nil]
      by_cases hc : (r.statics.time_cnt : Int) > 3 * (freq : Int)
      · rw [if_pos hc, if_neg (by omega)]
      · rw [if_neg hc, if_pos (by omega)]
  | cons e rest ih =>
    intro r d hd hrest hp ht
    obtain ⟨r1, hr1, _, hprot, _, htime, _⟩ :=
      handler_hazard r.statics r.target d freq hd hp
    have ht1 : r1.statics.time_cnt ≤ 3 * freq + 1 := by
      rw [htime]
      unfold incU16
      split_ifs with hc
      · exact ht
      · push_cast at hc
        rw [Nat.mod_eq_of_lt (by omega)]
        omega
    obtain ⟨r2, hr2, hret2, hprot2, htime2, htgt2⟩ :=
      ih r1 e (hrest e (List.mem_cons_self e rest))
        (fun x hx => hrest x (List.mem_cons_of_mem e hx)) (Or.inl hprot) ht1
    have hstep : r1.statics.time_cnt =
        min (r.statics.time_cnt + 1) (3 * freq + 1) := by
      rw [htime]
      unfold incU16
      split_ifs with hc
      · push_cast at hc
        omega
      · push_cast at hc
        rw [Nat.mod_eq_of_lt (by omega)]
        omega
    refine ⟨r2, ?_, hret2, hprot2, ?_, ?_⟩
    · rw [← hr2]
      simp only [handlerRun, hr1]
    · rw [htime2, hstep]
      simp only [List.length_cons]
      omega
    · rw [htgt2, hstep]
      simp only [List.length_cons]
      by_cases hc : r.statics.time_cnt + (rest.length + 1 + 1) ≤ 3 * freq + 1
      · rw [if_pos hc, if_pos (by omega)]
      · rw [if_neg hc, if_neg (by omega)]

/-- C5 (the code at the failing inputs): protection can be active with the
active linear speed at zero, and the next hazard-free handler call then
divides by zero.  At 500 Hz: stage `(100, 0)`, run a quiet cycle, then a
cycle with a hazard and a fault bit, then a quiet cycle.  At 1000 Hz the same
with the handler running every second cycle.  Third, without any fault:
1502 hazard calls in a row time out to the stop command, and the first
hazard-free call after them divides by zero. -/
theorem C5_release_division_by_zero :
    (runCycles cfg500 (SetVWValue initMotion 100 0 0) [quietInput 0 0, quietInput 1 1]
        = some (zeroedProtectState, [⟨100, 0⟩, ⟨0, 0⟩]) ∧
      Reachable cfg500 zeroedProtectState ∧
      zeroedProtectState.handler.is_protect = true ∧
      zeroedProtectState.target_vw.sV = 0 ∧
      DropAndCollisionSensorHandler zeroedProtectState.handler
        zeroedProtectState.target_vw 0 500 = none ∧
      ChassisMovingController cfg500 zeroedProtectState (quietInput 0 0) = none) ∧
    (runCycles cfg1000 (SetVWValue initMotion 100 0 0)
        [quietInput 0 0, quietInput 0 0, quietInput 0 0, quietInput 1 1, quietInput 0 0]
        = some (zeroedProtectState1000,
            [⟨100, 0⟩, ⟨100, 0⟩, ⟨100, 0⟩, ⟨0, 0⟩, ⟨0, 0⟩]) ∧
      Reachable cfg1000 zeroedProtectState1000 ∧
      ChassisMovingController cfg1000 zeroedProtectState1000 (quietInput 0 0) = none) ∧
    (∃ r, handlerRun 500 ⟨⟨false, 0, 0⟩, ⟨100, 0⟩, false⟩ (List.replicate 1502 1) = some r ∧
      r.statics.is_protect = true ∧ r.target = ⟨0, 0⟩ ∧
      DropAndCollisionSensorHandler r.statics r.target 0 500 = none) := by
  have h500 : runCycles cfg500 (SetVWValue initMotion 100 0 0)
      [quietInput 0 0, quietInput 1 1] = some (zeroedProtectState, [⟨100, 0⟩, ⟨0, 0⟩]) := by
    decide
  have h1000 : runCycles cfg1000 (SetVWValue initMotion 100 0 0)
      [quietInput 0 0, quietInput 0 0, quietInput 0 0, quietInput 1 1, quietInput 0 0]
      = some (zeroedProtectState1000,
          [⟨100, 0⟩, ⟨100, 0⟩, ⟨100, 0⟩, ⟨0, 0⟩, ⟨0, 0⟩]) := by
    decide
  refine ⟨⟨h500, ?_, by decide, by decide, by decide, by decide⟩,
    ⟨h1000, ?_, by decide⟩, ?_⟩
  · exact Reachable_runCycles cfg500 _ _ _
      (Reachable.setVW initMotion 100 0 0 Reachable.init) h500
  · exact Reachable_runCycles cfg1000 _ _ _
      (Reachable.setVW initMotion 100 0 0 Reachable.init) h1000
  · obtain ⟨r, hr, _, hprot, _, htgt⟩ :=
      handlerRun_hazard 500 (by decide) (List.replicate 1501 1)
        ⟨⟨false, 0, 0⟩, ⟨100, 0⟩, false⟩ 1 (by decide)
        (fun x hx => by rw [List.eq_of_mem_replicate hx]; decide)
        (Or.inr (Or.inl (by decide))) (by decide)
    have htgt0 : r.target = ⟨0, 0⟩ := by
      rw [htgt, List.length_replicate]
      decide
    refine ⟨r, hr, hprot, htgt0, ?_⟩
    unfold DropAndCollisionSensorHandler
    simp [hprot, htgt0]

/-- C6 (as stated, refuted): a cycle whose sensor check reports a hazard
while the active command is the stop `(0, 0)` and protection is not active
takes over the staged command `(100, 0)`, clears `VW_Update` and forwards
`(100, 0)` to the speed loop.  First at 500 Hz from the initial state, then
at 1000 Hz one cycle later, when the divider lets the handler run. -/
theorem C6_staged_accepted_during_hazard_counterexample :
    ((SetVWValue initMotion 100 0 0).VW_Update = 1 ∧
      (quietInput 1 0).drop ≠ 0 ∧
      (FREQ cfg500 (SetVWValue initMotion 100 0 0).stop_cnt 500).2 = true ∧
      ChassisMovingController cfg500 (SetVWValue initMotion 100 0 0) (quietInput 1 0)
        = some (forwardState, ⟨100, 0⟩) ∧
      forwardState.VW_Update = 0 ∧ forwardState.target_vw = ⟨100, 0⟩) ∧
    (runCycles cfg1000 initMotion [quietInput 0 0]
        = some ({ initMotion with stop_cnt := 1 }, [⟨0, 0⟩]) ∧
      ChassisMovingController cfg1000
        (SetVWValue { initMotion with stop_cnt := 1 } 100 0 0) (quietInput 1 0)
        = some (forwardState, ⟨100, 0⟩)) := by
  decide

/-- C6 (amended): in a controller cycle whose sensor check runs and reports a
hazard, if protection is already active or the active command has `sV > 0`
or `sW != 0`, a staged command is ignored: the cycle ends protecting,
`VW_Update` and the staged command are untouched, and the command forwarded
is the stop or the creep, decided by the fault word and the timeout counter
alone.  If instead protection is not active and the active command is
stationary or reversing, a pending staged command becomes the active target
and is forwarded unless the fault override zeroes it. -/
theorem C6_staged_ignored_when_hazard_protects (cfg : Config) (s : MotionStatics)
    (inp : CycleInput) (hf : (FREQ cfg s.stop_cnt 500).2 = true) (hd : inp.drop ≠ 0) :
    (s.handler.is_protect = true ∨ s.target_vw.sV > 0 ∨ s.target_vw.sW ≠ 0 →
      ∃ s' out, ChassisMovingController cfg s inp = some (s', out) ∧
        s'.is_protect = true ∧ s'.VW_Update = s.VW_Update ∧
        s'.TargetSpeed = s.TargetSpeed ∧ s'.target_vw = out ∧
        out = (if MotionCheckErr cfg inp.err_flags ≠ 0 then ⟨0, 0⟩
               else if (s.handler.time_cnt : Int) > 3 * ((500 : Nat) : Int) then ⟨0, 0⟩
               else ⟨-150, 0⟩)) ∧
    (s.handler.is_protect = false → s.target_vw.sV ≤ 0 → s.target_vw.sW = 0 →
      s.VW_Update ≠ 0 →
      ∃ s' out, ChassisMovingController cfg s inp = some (s', out) ∧
        s'.is_protect = false ∧ s'.VW_Update = 0 ∧ s'.target_vw = out ∧
        out = (if MotionCheckErr cfg inp.err_flags ≠ 0 then ⟨0, 0⟩ else s.TargetSpeed)) := by
  constructor
  · intro hp
    obtain ⟨s', out, hc, h1, _, h3, h4, h5, h6⟩ := cycle_hazard_protects cfg s inp hf hd hp
    exact ⟨s', out, hc, h1, h3, h4, h5, h6⟩
  · intro hnp hv hw hu
    have hm : ¬ (s.target_vw.sV > 0 ∨ s.target_vw.sW ≠ 0) := by
      rintro (h | h)
      · omega
      · exact h hw
    have hh : DropAndCollisionSensorHandler s.handler s.target_vw inp.drop 500 =
        some ⟨s.handler, s.target_vw, false⟩ := by
      unfold DropAndCollisionSensorHandler
      simp [hd, hm, hnp]
    have hs : sensorCheck cfg (locationStage cfg s inp) inp.drop =
        some { locationStage cfg s inp with
          stop_cnt := 0, handler := s.handler, target_vw := s.target_vw,
          is_protect := false } := by
      unfold sensorCheck
      have hf' : (FREQ cfg (locationStage cfg s inp).stop_cnt 500).2 = true := hf
      rw [if_pos hf']
      have hh' : DropAndCollisionSensorHandler (locationStage cfg s inp).handler
          (locationStage cfg s inp).target_vw inp.drop 500 =
          some ⟨s.handler, s.target_vw, false⟩ := hh
      rw [hh']
    have hu' : (locationStage cfg s inp).VW_Update ≠ 0 := hu
    unfold ChassisMovingController
    rw [hs]
    refine ⟨_, _, rfl, ?_, ?_, rfl, ?_⟩
    · unfold errOverride acceptStaged
      split_ifs <;> simp_all
    · unfold errOverride acceptStaged
      split_ifs <;> simp_all
    · unfold errOverride acceptStaged
      by_cases he : MotionCheckErr cfg inp.err_flags ≠ 0
      · simp [he, hu']
      · simp [he, hu, locationStage]

/-- C6 (instance): at 500 Hz, while moving forward with `(100, 0)`, the
command `(200, 5)` is staged and the next cycle reads a hazard: the cycle
forwards the creep and `(200, 5)` stays pending. -/
theorem C6_staged_ignored_when_hazard_protects_witness :
    ∃ s' out, ChassisMovingController cfg500 (SetVWValue forwardState 200 5 0)
        (quietInput 1 0) = some (s', out) ∧
      s'.is_protect = true ∧ s'.VW_Update = (SetVWValue forwardState 200 5 0).VW_Update ∧
      s'.TargetSpeed = (SetVWValue forwardState 200 5 0).TargetSpeed ∧ s'.target_vw = out ∧
      out = (if MotionCheckErr cfg500 (quietInput 1 0).err_flags ≠ 0 then ⟨0, 0⟩
             else if ((SetVWValue forwardState 200 5 0).handler.time_cnt : Int) >
                 3 * ((500 : Nat) : Int) then ⟨0, 0⟩
             else ⟨-150, 0⟩) :=
  (C6_staged_ignored_when_hazard_protects cfg500 (SetVWValue forwardState 200 5 0)
    (quietInput 1 0) (by decide) (by decide)).1 (Or.inr (Or.inl (by decide)))

/-- C7 (as stated, refuted): from the normal state with the forward command
`(100, 0)`, after `n = 3 * freq` hazard calls in a row the active command is
still the creep `(-150, 0)`, not `(0, 0)`: for `freq = 500`, `n = 1500`, and
for `freq = 1`, `n = 3`. -/
theorem C7_creep_after_three_seconds_counterexample :
    (∃ r, handlerRun 500 ⟨⟨false, 0, 0⟩, ⟨100, 0⟩, false⟩ (List.replicate (3 * 500) 1)
        = some r ∧ r.target = ⟨-150, 0⟩ ∧ r.target ≠ ⟨0, 0⟩) ∧
    handlerRun 1 ⟨⟨false, 0, 0⟩, ⟨100, 0⟩, false⟩ (List.replicate (3 * 1) 1)
      = some ⟨⟨true, 3, 0⟩, ⟨-150, 0⟩, true⟩ := by
  constructor
  · obtain ⟨r, hr, _, _, _, htgt⟩ :=
      handlerRun_hazard 500 (by decide) (List.replicate 1499 1)
        ⟨⟨false, 0, 0⟩, ⟨100, 0⟩, false⟩ 1 (by decide)
        (fun x hx => by rw [List.eq_of_mem_replicate hx]; decide)
        (Or.inr (Or.inl (by decide))) (by decide)
    have htgt1 : r.target = ⟨-150, 0⟩ := by
      rw [htgt, List.length_replicate]
      decide
    refine ⟨r, hr, htgt1, ?_⟩
    rw [htgt1]
    decide
  · decide

/-- C7 (amended): from a state whose timeout counter is zero (as it is in
the normal, non-protecting state) with a forward or rotating active command
and `freq <= 21844`, if a hazard is reported on every one of `n` consecutive
handler calls with `n >= 3 * freq + 2`, then after the last call the active
command is exactly `(0, 0)` and the handler returns `true`. -/
theorem C7_timeout_forces_stop (freq : Nat) (hfreq : freq ≤ 21844)
    (st : HandlerStatics) (target : CSpeedVW) (drops : List Nat)
    (htime : st.time_cnt = 0)
    (hm : target.sV > 0 ∨ target.sW ≠ 0)
    (hhaz : ∀ d ∈ drops, d ≠ 0) (hn : 3 * freq + 2 ≤ drops.length) :
    ∃ r, handlerRun freq ⟨st, target, st.is_protect⟩ drops = some r ∧
      r.target = ⟨0, 0⟩ ∧ r.ret = true ∧ r.statics.is_protect = true := by
  cases drops with
  | nil => simp at hn
  | cons d rest =>
    obtain ⟨r, hr, hret, hprot, _, htgt⟩ :=
      handlerRun_hazard freq (by omega) rest ⟨st, target, st.is_protect⟩ d
        (hhaz d (List.mem_cons_self d rest))
        (fun x hx => hhaz x (List.mem_cons_of_mem d hx))
        (Or.inr hm) (by simp [htime])
    refine ⟨r, hr, ?_, hret, hprot⟩
    rw [htgt]
    simp only [List.length_cons] at hn
    have : ¬ (st.time_cnt + (rest.length + 1) ≤ 3 * freq + 1) := by
      rw [htime]
      omega
    exact if_neg this

/-- C7 (instance): `freq = 1`, five hazard calls from the normal state with
the forward command `(100, 0)`. -/
theorem C7_timeout_forces_stop_witness :
    ∃ r, handlerRun 1 ⟨⟨false, 0, 0⟩, ⟨100, 0⟩, false⟩ [1, 1, 1, 1, 1] = some r ∧
      r.target = ⟨0, 0⟩ ∧ r.ret = true ∧ r.statics.is_protect = true :=
  C7_timeout_forces_stop 1 (by decide) ⟨false, 0, 0⟩ ⟨100, 0⟩ [1, 1, 1, 1, 1]
    rfl (Or.inl (by decide)) (by decide) (by decide)

/-- The handler has no result exactly when it is protecting, reads no hazard
and the active linear speed is zero. -/
theorem handler_none_iff (st : HandlerStatics) (target : CSpeedVW) (drop freq : Nat) :
    DropAndCollisionSensorHandler st target drop freq = none ↔
      (drop = 0 ∧ st.is_protect = true ∧ target.sV = 0) := by
  unfold DropAndCollisionSensorHandler
  by_cases hd : drop = 0
  · cases hp : st.is_protect
    · simp [hd]
    · by_cases hz : target.sV = 0
      · simp [hd, hz]
      · simp only [hd, hz]
        split_ifs <;> simp_all
  · simp only [hd]
    split_ifs <;> simp_all

/-- The sensor check has no result exactly when the handler runs and has
none. -/
theorem sensorCheck_none_iff (cfg : Config) (s : MotionStatics) (drop : Nat) :
    sensorCheck cfg s drop = none ↔
      ((FREQ cfg s.stop_cnt 500).2 = true ∧ drop = 0 ∧ s.handler.is_protect = true ∧
        s.target_vw.sV = 0) := by
  rw [← handler_none_iff s.handler s.target_vw drop 500]
  unfold sensorCheck
  by_cases hf : (FREQ cfg s.stop_cnt 500).2 = true
  · rw [if_pos hf]
    cases hr : DropAndCollisionSensorHandler s.handler s.target_vw drop 500 with
    | none => simp [hf]
    | some r => simp
  · rw [if_neg hf]
    simp [hf]

/-- A controller cycle is the composition of its four stages. -/
theorem cycle_stages (cfg : Config) (s : MotionStatics) (inp : CycleInput)
    (s' : MotionStatics) (out : CSpeedVW)
    (h : ChassisMovingController cfg s inp = some (s', out)) :
    ∃ s2, sensorCheck cfg (locationStage cfg s inp) inp.drop = some s2 ∧
      s' = errOverride cfg (acceptStaged s2) inp.err_flags ∧ out = s'.target_vw ∧
      s2.TargetSpeed = s.TargetSpeed ∧ s2.VW_Update = s.VW_Update := by
  unfold ChassisMovingController at h
  cases hs : sensorCheck cfg (locationStage cfg s inp) inp.drop with
  | none => rw [hs] at h; cases h
  | some s2 =>
    rw [hs] at h
    simp only [Option.some.injEq, Prod.mk.injEq] at h
    refine ⟨s2, rfl, h.1.symm, ?_, ?_, ?_⟩
    · rw [← h.2, ← h.1]
    · unfold sensorCheck at hs
      split_ifs at hs with hf
      · cases hr : DropAndCollisionSensorHandler (locationStage cfg s inp).handler
            (locationStage cfg s inp).target_vw inp.drop 500 with
        | none => rw [hr] at hs; cases hs
        | some r =>
          rw [hr] at hs
          simp only [Option.some.injEq] at hs
          rw [← hs]
          rfl
      · simp only [Option.some.injEq] at hs
        rw [← hs]
        rfl
    · unfold sensorCheck at hs
      split_ifs at hs with hf
      · cases hr : DropAndCollisionSensorHandler (locationStage cfg s inp).handler
            (locationStage cfg s inp).target_vw inp.drop 500 with
        | none => rw [hr] at hs; cases hs
        | some r =>
          rw [hr] at hs
          simp only [Option.some.injEq] at hs
          rw [← hs]
          rfl
      · simp only [Option.some.injEq] at hs
        rw [← hs]
        rfl

/-- C8: when protection is active with the creep command `(-150, 0)`, the
sensor check of the cycle runs, reads no hazard, and the release counter
passes its bound `|20 * 500 / -150| = 66`, then in that cycle, with or
without a global fault, the protecting flag becomes false (timeout counter
reset) and `VW_Update` is clear afterwards; absent a global fault the command
forwarded is the staged command if one was pending and `(0, 0)` otherwise;
under a global fault it is `(0, 0)`. -/
theorem C8_release_resumes_staged (cfg : Config) (s : MotionStatics) (inp : CycleInput)
    (hp : s.handler.is_protect = true) (ht : s.target_vw = ⟨-150, 0⟩)
    (hd : inp.drop = 0) (hf : (FREQ cfg s.stop_cnt 500).2 = true)
    (hx : (incU16 s.handler.dealy_cnt : Int) >
      cabs (Int.tdiv (20 * ((500 : Nat) : Int)) s.target_vw.sV)) :
    ∃ s' out, ChassisMovingController cfg s inp = some (s', out) ∧
      s'.is_protect = false ∧ s'.handler.is_protect = false ∧
      s'.handler.time_cnt = 0 ∧ s'.VW_Update = 0 ∧ s'.target_vw = out ∧
      (MotionCheckErr cfg inp.err_flags = 0 →
        out = (if s.VW_Update ≠ 0 then s.TargetSpeed else ⟨0, 0⟩)) ∧
      (MotionCheckErr cfg inp.err_flags ≠ 0 → out = ⟨0, 0⟩) := by
  have hz : s.target_vw.sV ≠ 0 := by
    rw [ht]
    decide
  have hh : DropAndCollisionSensorHandler s.handler s.target_vw inp.drop 500 =
      some ⟨{ is_protect := false, time_cnt := 0, dealy_cnt := incU16 s.handler.dealy_cnt },
        ⟨0, 0⟩, false⟩ := by
    unfold DropAndCollisionSensorHandler
    simp only [hd, hp, hz, hx]
    simp
  have hs : sensorCheck cfg (locationStage cfg s inp) inp.drop =
      some { locationStage cfg s inp with
        stop_cnt := 0
        handler := { is_protect := false, time_cnt := 0,
                     dealy_cnt := incU16 s.handler.dealy_cnt }
        target_vw := ⟨0, 0⟩
        is_protect := false } := by
    unfold sensorCheck
    have hf' : (FREQ cfg (locationStage cfg s inp).stop_cnt 500).2 = true := hf
    rw [if_pos hf']
    have hh' : DropAndCollisionSensorHandler (locationStage cfg s inp).handler
        (locationStage cfg s inp).target_vw inp.drop 500 = _ := hh
    rw [hh']
  unfold ChassisMovingController
  rw [hs]
  refine ⟨_, _, rfl, ?_, ?_, ?_, ?_, rfl, ?_, ?_⟩
  · unfold errOverride acceptStaged
    split_ifs <;> rfl
  · unfold errOverride acceptStaged
    split_ifs <;> rfl
  · unfold errOverride acceptStaged
    split_ifs <;> rfl
  · unfold errOverride acceptStaged
    by_cases hu : s.VW_Update ≠ 0
    · by_cases he : MotionCheckErr cfg inp.err_flags ≠ 0
      · simp [he, hu, locationStage]
      · simp [he, hu, locationStage]
    · have hu0 : s.VW_Update = 0 := not_not.mp hu
      by_cases he : MotionCheckErr cfg inp.err_flags ≠ 0
      · simp [he, hu0, locationStage]
      · simp [he, hu0, locationStage]
  · intro he
    unfold errOverride acceptStaged
    by_cases hu : s.VW_Update ≠ 0
    · simp [he, hu, locationStage]
    · simp [he, hu, locationStage]
  · intro he
    unfold errOverride
    rw [if_pos he]

/-- C8 (instance): at 500 Hz, protecting with the creep, release counter at
66 and the command `(100, 0)` pending; the next cycle reads no hazard.
Without a fault it releases and forwards `(100, 0)`; with the tilt bit set
it releases as well and forwards `(0, 0)`. -/
theorem C8_release_resumes_staged_witness :
    (∃ s' out, ChassisMovingController cfg500
        { initMotion with TargetSpeed := ⟨100, 0⟩, VW_Update := 1, target_vw := ⟨-150, 0⟩,
                          handler := ⟨true, 1, 66⟩, is_protect := true }
        (quietInput 0 0) = some (s', out) ∧
      s'.is_protect = false ∧ s'.handler.is_protect = false ∧
      s'.handler.time_cnt = 0 ∧ s'.VW_Update = 0 ∧ s'.target_vw = out ∧
      (MotionCheckErr cfg500 (quietInput 0 0).err_flags = 0 →
        out = (if (1 : Nat) ≠ 0 then (⟨100, 0⟩ : CSpeedVW) else ⟨0, 0⟩)) ∧
      (MotionCheckErr cfg500 (quietInput 0 0).err_flags ≠ 0 → out = ⟨0, 0⟩)) ∧
    ChassisMovingController cfg500
        { initMotion with TargetSpeed := ⟨100, 0⟩, VW_Update := 1, target_vw := ⟨-150, 0⟩,
                          handler := ⟨true, 1, 66⟩, is_protect := true }
        (quietInput 0 0) =
      some ({ initMotion with TargetSpeed := ⟨100, 0⟩, target_vw := ⟨100, 0⟩,
                              handler := ⟨false, 0, 67⟩ }, ⟨100, 0⟩) ∧
    ChassisMovingController cfg500
        { initMotion with TargetSpeed := ⟨100, 0⟩, VW_Update := 1, target_vw := ⟨-150, 0⟩,
                          handler := ⟨true, 1, 66⟩, is_protect := true }
        (quietInput 0 2) =
      some ({ initMotion with TargetSpeed := ⟨100, 0⟩, target_vw := ⟨0, 0⟩,
                              handler := ⟨false, 0, 67⟩ }, ⟨0, 0⟩) :=
  ⟨C8_release_resumes_staged cfg500
    { initMotion with TargetSpeed := ⟨100, 0⟩, VW_Update := 1, target_vw := ⟨-150, 0⟩,
                      handler := ⟨true, 1, 66⟩, is_protect := true }
    (quietInput 0 0) rfl rfl rfl (by decide) (by decide),
   by decide, by decide⟩

/-- C9: in every completed controller cycle the staged command itself is
never modified; if the protecting flag is true after the sensor check, the
dirty flag `VW_Update` keeps its value and the active target is the one the
sensor check left (up to the fault override); the same holds when no command
is pending; and if the flag is false and `VW_Update` is set, the flag is
cleared and the active target is the whole staged command, both `sV` and
`sW` (up to the fault override). -/
theorem C9_staged_taken_only_when_not_protecting (cfg : Config) (s : MotionStatics)
    (inp : CycleInput) (s' : MotionStatics) (out : CSpeedVW)
    (h : ChassisMovingController cfg s inp = some (s', out)) :
    ∃ s2, sensorCheck cfg (locationStage cfg s inp) inp.drop = some s2 ∧
      s'.is_protect = s2.is_protect ∧ s'.TargetSpeed = s.TargetSpeed ∧
      (s2.is_protect = true →
        acceptStaged s2 = s2 ∧ s'.VW_Update = s.VW_Update ∧
        s'.target_vw =
          (if MotionCheckErr cfg inp.err_flags ≠ 0 then ⟨0, 0⟩ else s2.target_vw)) ∧
      (s.VW_Update = 0 →
        acceptStaged s2 = s2 ∧ s'.VW_Update = 0 ∧
        s'.target_vw =
          (if MotionCheckErr cfg inp.err_flags ≠ 0 then ⟨0, 0⟩ else s2.target_vw)) ∧
      (s2.is_protect = false → s.VW_Update ≠ 0 →
        (acceptStaged s2).target_vw = s.TargetSpeed ∧ s'.VW_Update = 0 ∧
        s'.target_vw =
          (if MotionCheckErr cfg inp.err_flags ≠ 0 then ⟨0, 0⟩ else s.TargetSpeed)) := by
  obtain ⟨s2, hs2, hs', _, hT, hU⟩ := cycle_stages cfg s inp s' out h
  refine ⟨s2, hs2, ?_, ?_, ?_, ?_, ?_⟩
  · rw [hs']
    unfold errOverride acceptStaged
    split_ifs <;> rfl
  · rw [hs', ← hT]
    unfold errOverride acceptStaged
    split_ifs <;> rfl
  · intro hp
    have ha : acceptStaged s2 = s2 := by
      unfold acceptStaged
      simp [hp]
    refine ⟨ha, ?_, ?_⟩
    · rw [hs', ha, ← hU]
      unfold errOverride
      split_ifs <;> rfl
    · rw [hs', ha]
      unfold errOverride
      split_ifs <;> rfl
  · intro hu
    have ha : acceptStaged s2 = s2 := by
      unfold acceptStaged
      simp [hU, hu]
    refine ⟨ha, ?_, ?_⟩
    · rw [hs', ha]
      unfold errOverride
      split_ifs
      · exact hU.trans hu
      · exact hU.trans hu
    · rw [hs', ha]
      unfold errOverride
      split_ifs <;> rfl
  · intro hp hu
    have ha : acceptStaged s2 = { s2 with VW_Update := 0, target_vw := s2.TargetSpeed } := by
      unfold acceptStaged
      simp [hp, hU, hu]
    refine ⟨by rw [ha, ← hT], ?_, ?_⟩
    · rw [hs', ha]
      unfold errOverride
      split_ifs <;> rfl
    · rw [hs', ha, ← hT]
      unfold errOverride
      split_ifs <;> rfl

/-- C9 (instance): the cycle at 500 Hz in which a hazard is met while moving
forward with `(100, 0)` and `(200, 5)` is pending. -/
theorem C9_staged_taken_only_when_not_protecting_witness :
    ∃ s2, sensorCheck cfg500
        (locationStage cfg500 (SetVWValue forwardState 200 5 0) (quietInput 1 0))
        (quietInput 1 0).drop = some s2 ∧
      creepPendingState.is_protect = s2.is_protect ∧
      creepPendingState.TargetSpeed = (SetVWValue forwardState 200 5 0).TargetSpeed ∧
      (s2.is_protect = true →
        acceptStaged s2 = s2 ∧
        creepPendingState.VW_Update = (SetVWValue forwardState 200 5 0).VW_Update ∧
        creepPendingState.target_vw =
          (if MotionCheckErr cfg500 (quietInput 1 0).err_flags ≠ 0 then ⟨0, 0⟩
           else s2.target_vw)) ∧
      ((SetVWValue forwardState 200 5 0).VW_Update = 0 →
        acceptStaged s2 = s2 ∧
        creepPendingState.VW_Update = 0 ∧
        creepPendingState.target_vw =
          (if MotionCheckErr cfg500 (quietInput 1 0).err_flags ≠ 0 then ⟨0, 0⟩
           else s2.target_vw)) ∧
      (s2.is_protect = false → (SetVWValue forwardState 200 5 0).VW_Update ≠ 0 →
        (acceptStaged s2).target_vw = (SetVWValue forwardState 200 5 0).TargetSpeed ∧
        creepPendingState.VW_Update = 0 ∧
        creepPendingState.target_vw =
          (if MotionCheckErr cfg500 (quietInput 1 0).err_flags ≠ 0 then ⟨0, 0⟩
           else (SetVWValue forwardState 200 5 0).TargetSpeed)) :=
  C9_staged_taken_only_when_not_protecting cfg500 (SetVWValue forwardState 200 5 0)
    (quietInput 1 0) creepPendingState ⟨-150, 0⟩ (by decide)

/-- C10: for every controller state and input, if `MotionCheckErr` returns a
nonzero value in a cycle, the command that cycle passes to
`SpeedLoop_SetTargetSpeed` is exactly `(0, 0)`, and so is the active target
it leaves; the cycle forwards a command unless its sensor check executes the
release division with a zero divisor. -/
theorem C10_fault_forces_stop (cfg : Config) (s : MotionStatics) (inp : CycleInput)
    (he : MotionCheckErr cfg inp.err_flags ≠ 0) :
    (∀ s' out, ChassisMovingController cfg s inp = some (s', out) →
      out = ⟨0, 0⟩ ∧ s'.target_vw = ⟨0, 0⟩) ∧
    ((∃ s', ChassisMovingController cfg s inp = some (s', ⟨0, 0⟩)) ∨
      (ChassisMovingController cfg s inp = none ∧
        (FREQ cfg s.stop_cnt 500).2 = true ∧ inp.drop = 0 ∧
        s.handler.is_protect = true ∧ s.target_vw.sV = 0)) := by
  have hall : ∀ s' out, ChassisMovingController cfg s inp = some (s', out) →
      out = ⟨0, 0⟩ ∧ s'.target_vw = ⟨0, 0⟩ := by
    intro s' out h
    obtain ⟨s2, _, hs', hout, _, _⟩ := cycle_stages cfg s inp s' out h
    have ht : s'.target_vw = ⟨0, 0⟩ := by
      rw [hs']
      unfold errOverride
      rw [if_pos he]
    exact ⟨hout.trans ht, ht⟩
  refine ⟨hall, ?_⟩
  cases hc : ChassisMovingController cfg s inp with
  | none =>
    right
    refine ⟨rfl, ?_⟩
    have hn : sensorCheck cfg (locationStage cfg s inp) inp.drop = none := by
      unfold ChassisMovingController at hc
      cases hs : sensorCheck cfg (locationStage cfg s inp) inp.drop with
      | none => rfl
      | some s2 => rw [hs] at hc; cases hc
    exact (sensorCheck_none_iff cfg (locationStage cfg s inp) inp.drop).1 hn
  | some r =>
    left
    obtain ⟨s', out⟩ := r
    obtain ⟨ho, _⟩ := hall s' out hc
    exact ⟨s', by rw [ho]⟩

/-- C10 (instance): at 500 Hz with the tilt bit set, a hazard-free cycle in
which the forward command `(300, 7)` is pending forwards `(0, 0)`, and so
does the next cycle, in which a hazard is read. -/
theorem C10_fault_forces_stop_witness :
    MotionCheckErr cfg500 (quietInput 0 2).err_flags ≠ 0 ∧
    ((∀ s' out, ChassisMovingController cfg500 (SetVWValue forwardState 300 7 0)
        (quietInput 0 2) = some (s', out) → out = ⟨0, 0⟩ ∧ s'.target_vw = ⟨0, 0⟩) ∧
      ((∃ s', ChassisMovingController cfg500 (SetVWValue forwardState 300 7 0)
          (quietInput 0 2) = some (s', ⟨0, 0⟩)) ∨
        (ChassisMovingController cfg500 (SetVWValue forwardState 300 7 0)
            (quietInput 0 2) = none ∧
          (FREQ cfg500 (SetVWValue forwardState 300 7 0).stop_cnt 500).2 = true ∧
          (quietInput 0 2).drop = 0 ∧
          (SetVWValue forwardState 300 7 0).handler.is_protect = true ∧
          (SetVWValue forwardState 300 7 0).target_vw.sV = 0))) ∧
    runCycles cfg500 (SetVWValue forwardState 300 7 0) [quietInput 0 2, quietInput 1 2]
      = some ({ forwardState with TargetSpeed := ⟨300, 7⟩, target_vw := ⟨0, 0⟩ },
              [⟨0, 0⟩, ⟨0, 0⟩]) :=
  ⟨by decide,
   C10_fault_forces_stop cfg500 (SetVWValue forwardState 300 7 0) (quietInput 0 2)
     (by decide),
   by decide⟩

/-! ## The periodic scheduler -/

/-- With nonzero frequencies `RunFlagHandler` returns, and on every task it
acts as one `FREQ_FLAG` step with that task's period. -/
theorem RunFlagHandler_tasks (cfg : Config) (tim : TimConfig) (s : SchedState) (tick : Nat)
    (h1 : tim.IMU_UPDATE_FREQ ≠ 0) (h2 : cfg.MOTION_PREQ ≠ 0) (h3 : s.US_FREQ ≠ 0) :
    ∃ s', RunFlagHandler cfg tim s tick = some s' ∧ s'.US_FREQ = s.US_FREQ ∧
      s'.RunFlag.boost =
        (freqFlagStep (TICK_FREQ / 100) tick s.statics._100Hz s.RunFlag.boost).2 ∧
      ∀ task : Task,
        lastDue s'.statics task =
          (freqFlagStep (taskPeriod cfg tim s task) tick (lastDue s.statics task)
            (dueFlag s.RunFlag task)).1 ∧
        dueFlag s'.RunFlag task =
          (freqFlagStep (taskPeriod cfg tim s task) tick (lastDue s.statics task)
            (dueFlag s.RunFlag task)).2 := by
  by_cases hc : TICK_FREQ / 100 ≤ wrapU32 ((tick : Int) - (s.statics._100Hz : Int))
  · cases hr : RunFlagHandler cfg tim s tick with
    | none => simp [RunFlagHandler, FREQ_FLAG, hc, h1, h2, h3] at hr
    | some s' =>
      simp [RunFlagHandler, FREQ_FLAG, hc, h1, h2, h3] at hr
      subst hr
      refine ⟨_, rfl, rfl, ?_, ?_⟩
      · simp [freqFlagStep, hc]
      · intro task
        cases task <;> simp [lastDue, dueFlag, taskPeriod, taskFreq, freqFlagStep, hc]
  · cases hr : RunFlagHandler cfg tim s tick with
    | none => simp [RunFlagHandler, FREQ_FLAG, hc, h1, h2, h3] at hr
    | some s' =>
      simp [RunFlagHandler, FREQ_FLAG, hc, h1, h2, h3] at hr
      subst hr
      refine ⟨_, rfl, rfl, ?_, ?_⟩
      · simp [freqFlagStep, hc]
      · intro task
        cases task <;> simp [lastDue, dueFlag, taskPeriod, taskFreq, freqFlagStep, hc]

/-- The period of a task depends on the state only through `US_FREQ`. -/
theorem taskPeriod_congr (cfg : Config) (tim : TimConfig) (s s' : SchedState) (task : Task)
    (h : s'.US_FREQ = s.US_FREQ) : taskPeriod cfg tim s' task = taskPeriod cfg tim s task := by
  cases task <;> simp [taskPeriod, taskFreq, h]

/-- The new last-due tick of a step does not depend on the old flag. -/
theorem freqFlagStep_fst (P tick t f : Nat) :
    (freqFlagStep P tick t f).1 = (freqFlagStep P tick t 0).1 := by
  unfold freqFlagStep
  split_ifs <;> rfl

/-- A step when the last-due tick is not ahead of the tick and nothing
wraps. -/
theorem freqFlagStep_nowrap (P tick t f : Nat) (ht : t ≤ tick) (hk : tick < 4294967296) :
    wrapU32 ((tick : Int) - (t : Int)) = tick - t ∧
    freqFlagStep P tick t f = if P ≤ tick - t then (t + P, 1) else (t, f) := by
  have hw : wrapU32 ((tick : Int) - (t : Int)) = tick - t := by
    unfold wrapU32
    omega
  refine ⟨hw, ?_⟩
  unfold freqFlagStep
  rw [hw]
  split_ifs with hc
  · have : wrapU32 ((t : Int) + (P : Int)) = t + P := by
      unfold wrapU32
      omega
    rw [this]
  · rfl

/-- A consumed flag reads zero. -/
theorem dueFlag_consumeFlag (rf : RunFlagType) (task : Task) :
    dueFlag (consumeFlag rf task) task = 0 := by
  cases task <;> rfl

/-- From a clear flag, the flag left by a step is set exactly when the step
was due. -/
theorem freqFlagStep_flag (P tick t : Nat) :
    decide ((freqFlagStep P tick t 0).2 ≠ 0) =
      decide (P ≤ wrapU32 ((tick : Int) - (t : Int))) := by
  unfold freqFlagStep
  split_ifs with hc
  · simp [hc]
  · simp [hc]

/-- Along a run of handler calls with the task's flag consumed after each
call, the last-due tick and the flags read follow the task's own
`taskRun`. -/
theorem schedTrace_task (cfg : Config) (tim : TimConfig) (task : Task)
    (h1 : tim.IMU_UPDATE_FREQ ≠ 0) (h2 : cfg.MOTION_PREQ ≠ 0) (ticks : List Nat) :
    ∀ s : SchedState, s.US_FREQ ≠ 0 → dueFlag s.RunFlag task = 0 →
      ∃ s', schedTrace cfg tim task s ticks =
          some (s', (taskRun (taskPeriod cfg tim s task) (lastDue s.statics task) ticks).2) ∧
        lastDue s'.statics task =
          (taskRun (taskPeriod cfg tim s task) (lastDue s.statics task) ticks).1 ∧
        s'.US_FREQ = s.US_FREQ ∧ dueFlag s'.RunFlag task = 0 := by
  induction ticks with
  | nil =>
    intro s _ hflag
    exact ⟨s, rfl, rfl, rfl, hflag⟩
  | cons tick rest ih =>
    intro s h3 hflag
    obtain ⟨s1, hs1, hus, _, htask⟩ := RunFlagHandler_tasks cfg tim s tick h1 h2 h3
    obtain ⟨hl, hfl⟩ := htask task
    rw [hflag] at hfl
    have hus1 : ({ s1 with RunFlag := consumeFlag s1.RunFlag task } : SchedState).US_FREQ =
        s.US_FREQ := hus
    obtain ⟨s2, hs2, hl2, hus2, hflag2⟩ :=
      ih { s1 with RunFlag := consumeFlag s1.RunFlag task } (by rw [hus1]; exact h3)
        (dueFlag_consumeFlag s1.RunFlag task)
    rw [taskPeriod_congr cfg tim s _ task hus1] at hs2 hl2
    have hl' : lastDue ({ s1 with RunFlag := consumeFlag s1.RunFlag task } :
        SchedState).statics task =
        (freqFlagStep (taskPeriod cfg tim s task) tick (lastDue s.statics task) 0).1 := by
      rw [← freqFlagStep_fst]
      exact hl
    rw [hl'] at hs2 hl2
    refine ⟨s2, ?_, ?_, hus2.trans hus1, hflag2⟩
    · simp only [schedTrace, hs1, hs2, taskRun, hfl, freqFlagStep_flag]
    · simp only [taskRun]
      exact hl2

/-- A task run with non-decreasing ticks that never wrap, from a last-due
tick that is a multiple of the period and not ahead of the ticks: the
last-due tick stays a multiple of the period, stays behind the latest tick,
and has advanced by one period per flagged call. -/
theorem taskRun_invariant (P : Nat) (ticks : List Nat) :
    ∀ t : Nat, P ∣ t → (∀ x ∈ ticks, t ≤ x ∧ x < 4294967296) →
      List.Pairwise (fun a b => a ≤ b) ticks →
      P ∣ (taskRun P t ticks).1 ∧
      (∀ x, ticks.getLast? = some x → (taskRun P t ticks).1 ≤ x) ∧
      (taskRun P t ticks).1 = t + (taskRun P t ticks).2.count true * P := by
  induction ticks with
  | nil =>
    intro t hd _ _
    simp [taskRun, hd]
  | cons tick rest ih =>
    intro t hd hb hs
    obtain ⟨htk, hk⟩ := hb tick (List.mem_cons_self tick rest)
    obtain ⟨hw, hstep⟩ := freqFlagStep_nowrap P tick t 0 htk hk
    rw [List.pairwise_cons] at hs
    have ht1 : t ≤ (freqFlagStep P tick t 0).1 ∧ (freqFlagStep P tick t 0).1 ≤ tick ∧
        P ∣ (freqFlagStep P tick t 0).1 ∧
        (freqFlagStep P tick t 0).1 = t + (if P ≤ tick - t then 1 else 0) * P := by
      rw [hstep]
      split_ifs with hc
      · refine ⟨by simp, by simp; omega, ?_, by simp⟩
        exact Dvd.dvd.add hd (dvd_refl P)
      · exact ⟨le_refl t, htk, hd, by simp⟩
    obtain ⟨h1, h2, h3, h4⟩ := ht1
    obtain ⟨ihd, ihl, ihc⟩ := ih (freqFlagStep P tick t 0).1 h3
      (fun x hx => ⟨le_trans h2 (hs.1 x hx), (hb x (List.mem_cons_of_mem tick hx)).2⟩) hs.2
    simp only [taskRun]
    refine ⟨ihd, ?_, ?_⟩
    · intro x hx
      cases rest with
      | nil =>
        simp only [List.getLast?_singleton, Option.some.injEq] at hx
        subst hx
        simpa [taskRun] using h2
      | cons y ys =>
        rw [List.getLast?_cons_cons] at hx
        exact ihl x hx
    · rw [ihc, h4, hw]
      by_cases hc : P ≤ tick - t
      · simp only [hc, if_true, decide_True, List.count_cons_self]
        rw [Nat.add_mul]
        omega
      · simp only [hc, if_false, decide_False]
        rw [List.count_cons_of_ne (by decide)]
        omega

/-- Quotient and remainder of a successor by a positive divisor. -/
theorem succ_div_mod (P n : Nat) (hP : 0 < P) :
    (n % P + 1 = P → (n + 1) / P = n / P + 1 ∧ (n + 1) % P = 0) ∧
    (n % P + 1 ≠ P → (n + 1) / P = n / P ∧ (n + 1) % P = n % P + 1) := by
  have hdm := Nat.div_add_mod n P
  have hlt := Nat.mod_lt n hP
  constructor
  · intro h
    have e : n + 1 = P * (n / P + 1) := by
      rw [Nat.mul_add, Nat.mul_one]
      omega
    rw [e]
    exact ⟨Nat.mul_div_cancel_left _ hP, Nat.mul_mod_right _ _⟩
  · intro h
    have e : n + 1 = P * (n / P) + (n % P + 1) := by omega
    have hr : n % P + 1 < P := by omega
    constructor
    · conv_lhs => rw [e]
      rw [Nat.mul_add_div hP, Nat.div_eq_of_lt hr, Nat.add_zero]
    · conv_lhs => rw [e]
      rw [Nat.mul_add_mod, Nat.mod_eq_of_lt hr]

/-- Called at consecutive ticks `a, a+1, ...`, a task whose last-due tick is
the largest multiple of the period below `a` is flagged exactly at the
multiples of the period. -/
theorem taskRun_consecutive (P : Nat) (hP : 0 < P) (n : Nat) :
    ∀ a : Nat, 1 ≤ a → a + n ≤ 4294967296 →
      taskRun P (P * ((a - 1) / P)) (List.range' a n) =
        (P * ((a + n - 1) / P), (List.range' a n).map (fun k => decide (P ∣ k))) := by
  induction n with
  | zero =>
    intro a _ _
    simp [taskRun]
  | succ n ih =>
    intro a ha hb
    have hdm := Nat.div_add_mod (a - 1) P
    have hlt := Nat.mod_lt (a - 1) hP
    obtain ⟨hyes, hno⟩ := succ_div_mod P (a - 1) hP
    have ha1 : a - 1 + 1 = a := by omega
    rw [ha1] at hyes hno
    have htk : P * ((a - 1) / P) ≤ a := by omega
    obtain ⟨hw, hstep⟩ := freqFlagStep_nowrap P a (P * ((a - 1) / P)) 0 htk (by omega)
    have hsub : a - P * ((a - 1) / P) = (a - 1) % P + 1 := by omega
    have key : (freqFlagStep P a (P * ((a - 1) / P)) 0).1 = P * ((a + 1 - 1) / P) ∧
        decide (P ≤ wrapU32 ((a : Int) - ((P * ((a - 1) / P) : Nat) : Int))) =
          decide (P ∣ a) := by
      rw [hstep, hw, hsub, Nat.add_sub_cancel]
      by_cases hc : (a - 1) % P + 1 = P
      · obtain ⟨hq, hm⟩ := hyes hc
        have hle : P ≤ (a - 1) % P + 1 := by omega
        rw [if_pos hle]
        refine ⟨?_, ?_⟩
        · show P * ((a - 1) / P) + P = P * (a / P)
          rw [hq, Nat.mul_add, Nat.mul_one]
        · simp only [hle, decide_True]
          exact (decide_eq_true (Nat.dvd_of_mod_eq_zero hm)).symm
      · obtain ⟨hq, hm⟩ := hno hc
        have hle : ¬ P ≤ (a - 1) % P + 1 := by omega
        rw [if_neg hle]
        refine ⟨?_, ?_⟩
        · show P * ((a - 1) / P) = P * (a / P)
          rw [hq]
        · simp only [hle, decide_False]
          have hnd : ¬ P ∣ a := by
            intro hd
            have := Nat.mod_eq_zero_of_dvd hd
            omega
          exact (decide_eq_false hnd).symm
    have hih := ih (a + 1) (by omega) (by omega)
    rw [List.range'_succ]
    simp only [taskRun, List.map_cons]
    rw [key.1, key.2, hih]
    have e : a + 1 + n - 1 = a + (n + 1) - 1 := by omega
    rw [e]

/-- A task that is `j` periods behind every coming tick is flagged in each
of the next `j` calls and advances by one period per call. -/
theorem taskRun_catchup (P : Nat) (ticks : List Nat) :
    ∀ t : Nat, (∀ x ∈ ticks, t + ticks.length * P ≤ x ∧ x < 4294967296) →
      taskRun P t ticks = (t + ticks.length * P, List.replicate ticks.length true) := by
  induction ticks with
  | nil =>
    intro t _
    simp [taskRun]
  | cons tick rest ih =>
    intro t hb
    obtain ⟨h1, h2⟩ := hb tick (List.mem_cons_self tick rest)
    simp only [List.length_cons, Nat.succ_mul] at h1
    obtain ⟨hw, hstep⟩ := freqFlagStep_nowrap P tick t 0 (by omega) h2
    have hc : P ≤ tick - t := by omega
    rw [if_pos hc] at hstep
    have hrest := ih (t + P) (fun x hx => by
      obtain ⟨h3, h4⟩ := hb x (List.mem_cons_of_mem tick hx)
      simp only [List.length_cons, Nat.succ_mul] at h3
      exact ⟨by omega, h4⟩)
    simp only [taskRun, hstep, hw, hrest, hc, decide_True, List.length_cons,
      List.replicate_succ, Nat.succ_mul]
    congr 1
    omega

/-! ## Claims on the periodic scheduler -/

/-- C11: with nonzero frequencies, one call of `RunFlagHandler` at any tick
treats every task with period `P = TICK_FREQ/freq` as follows: if
`(tick - last_due) mod 2^32 >= P` it sets the task's due flag to 1 and
advances `last_due` by exactly `P` modulo `2^32`; otherwise it leaves
`last_due` and the flag unchanged.  No flag is cleared, and the 100 Hz block
treats `boost` like `supervise`. -/
theorem C11_run_flag_handler_step (cfg : Config) (tim : TimConfig) (s : SchedState)
    (tick : Nat) (h1 : tim.IMU_UPDATE_FREQ ≠ 0) (h2 : cfg.MOTION_PREQ ≠ 0)
    (h3 : s.US_FREQ ≠ 0) :
    ∃ s', RunFlagHandler cfg tim s tick = some s' ∧
      (∀ task : Task,
        (taskPeriod cfg tim s task ≤
            wrapU32 ((tick : Int) - (lastDue s.statics task : Int)) →
          dueFlag s'.RunFlag task = 1 ∧
          lastDue s'.statics task =
            wrapU32 ((lastDue s.statics task : Int) + (taskPeriod cfg tim s task : Int))) ∧
        (¬ taskPeriod cfg tim s task ≤
            wrapU32 ((tick : Int) - (lastDue s.statics task : Int)) →
          dueFlag s'.RunFlag task = dueFlag s.RunFlag task ∧
          lastDue s'.statics task = lastDue s.statics task) ∧
        (dueFlag s.RunFlag task ≠ 0 → dueFlag s'.RunFlag task ≠ 0)) ∧
      (TICK_FREQ / 100 ≤ wrapU32 ((tick : Int) - (s.statics._100Hz : Int)) →
        s'.RunFlag.boost = 1) ∧
      (¬ TICK_FREQ / 100 ≤ wrapU32 ((tick : Int) - (s.statics._100Hz : Int)) →
        s'.RunFlag.boost = s.RunFlag.boost) ∧
      (s.RunFlag.boost ≠ 0 → s'.RunFlag.boost ≠ 0) := by
  obtain ⟨s', hs', _, hboost, htask⟩ := RunFlagHandler_tasks cfg tim s tick h1 h2 h3
  refine ⟨s', hs', ?_, ?_, ?_, ?_⟩
  · intro task
    obtain ⟨hl, hf⟩ := htask task
    rw [hl, hf]
    unfold freqFlagStep
    refine ⟨?_, ?_, ?_⟩
    · intro hc
      rw [if_pos hc]
      exact ⟨rfl, rfl⟩
    · intro hc
      rw [if_neg hc]
      exact ⟨rfl, rfl⟩
    · intro hne
      split_ifs
      · exact Nat.one_ne_zero
      · exact hne
  · intro hc
    rw [hboost]
    unfold freqFlagStep
    rw [if_pos hc]
  · intro hc
    rw [hboost]
    unfold freqFlagStep
    rw [if_neg hc]
  · intro hne
    rw [hboost]
    unfold freqFlagStep
    split_ifs
    · exact Nat.one_ne_zero
    · exact hne

/-- C11 (instance): from the initial state at 1000 Hz the call at tick 10
flags the motion task and moves its last-due tick from 0 to 1, not to 10;
and a last-due tick of `2^32 - 6` with period 10 is due at tick 5 and
advances to 4. -/
theorem C11_run_flag_handler_step_witness :
    (∃ s', RunFlagHandler cfg1000 tim10k initSched 10 = some s' ∧
      dueFlag s'.RunFlag Task.motion = 1 ∧
      lastDue s'.statics Task.motion =
        wrapU32 ((lastDue initSched.statics Task.motion : Int) +
          (taskPeriod cfg1000 tim10k initSched Task.motion : Int))) ∧
    taskPeriod cfg1000 tim10k initSched Task.motion = 1 ∧
    freqFlagStep 10 5 4294967290 0 = (4, 1) :=
  ⟨(C11_run_flag_handler_step cfg1000 tim10k initSched 10
      (by decide) (by decide) (by decide)).elim
      (fun s' h => ⟨s', h.1, (h.2.1 Task.motion).1 (by decide)⟩),
   by decide, by decide⟩

/-- C18: with nonzero frequencies, for every task with period `P >= 1`
whose due flag is clear at the start and is cleared by its consumer after
every call; "flagged" means that the flag in `RunFlag` is found set after
the call.  First, for every sequence of calls with non-decreasing tick values
below `2^32` from `last_due = 0` (hence after each call of such a sequence):
`last_due` is a multiple of `P`, it is at most the tick of the latest call,
and the number of calls that flagged the task is `last_due / P`, at most
`tick / P`.  Second, called at the consecutive ticks `0, 1, ..., n` the task
is flagged exactly at the ticks that are positive multiples of `P`.  Third, a
task that is `j` periods behind all coming ticks is flagged in each of the
next `j` calls and advances by `P` per call. -/
theorem C18_scheduler_drift_free (cfg : Config) (tim : TimConfig) (task : Task)
    (h1 : tim.IMU_UPDATE_FREQ ≠ 0) (h2 : cfg.MOTION_PREQ ≠ 0) :
    (∀ (s : SchedState) (ticks : List Nat), s.US_FREQ ≠ 0 →
      dueFlag s.RunFlag task = 0 →
      1 ≤ taskPeriod cfg tim s task → lastDue s.statics task = 0 →
      List.Pairwise (fun a b => a ≤ b) ticks → (∀ x ∈ ticks, x < 4294967296) →
      ∃ s' tr, schedTrace cfg tim task s ticks = some (s', tr) ∧
        taskPeriod cfg tim s task ∣ lastDue s'.statics task ∧
        (∀ x, ticks.getLast? = some x →
          lastDue s'.statics task ≤ x ∧
          tr.count true ≤ x / taskPeriod cfg tim s task) ∧
        tr.count true = lastDue s'.statics task / taskPeriod cfg tim s task) ∧
    (∀ (s : SchedState) (n : Nat), s.US_FREQ ≠ 0 →
      dueFlag s.RunFlag task = 0 →
      1 ≤ taskPeriod cfg tim s task → lastDue s.statics task = 0 → n < 4294967296 →
      ∃ s', schedTrace cfg tim task s (List.range (n + 1)) =
        some (s', (List.range (n + 1)).map
          (fun k => decide (0 < k ∧ taskPeriod cfg tim s task ∣ k)))) ∧
    (∀ (s : SchedState) (ticks : List Nat), s.US_FREQ ≠ 0 →
      dueFlag s.RunFlag task = 0 →
      (∀ x ∈ ticks,
        lastDue s.statics task + ticks.length * taskPeriod cfg tim s task ≤ x ∧
        x < 4294967296) →
      ∃ s', schedTrace cfg tim task s ticks =
          some (s', List.replicate ticks.length true) ∧
        lastDue s'.statics task =
          lastDue s.statics task + ticks.length * taskPeriod cfg tim s task) := by
  refine ⟨?_, ?_, ?_⟩
  · intro s ticks h3 hflag hP h0 hsorted hbound
    obtain ⟨s', hs', hl, _, _⟩ := schedTrace_task cfg tim task h1 h2 ticks s h3 hflag
    obtain ⟨hd, hlast, hcount⟩ :=
      taskRun_invariant (taskPeriod cfg tim s task) ticks (lastDue s.statics task)
        (by rw [h0]; exact dvd_zero _)
        (fun x hx => ⟨by rw [h0]; exact Nat.zero_le x, hbound x hx⟩) hsorted
    rw [← hl] at hd hlast hcount
    rw [h0, Nat.zero_add] at hcount
    have hc : (taskRun (taskPeriod cfg tim s task) (lastDue s.statics task) ticks).2.count true
        = lastDue s'.statics task / taskPeriod cfg tim s task := by
      rw [hcount, h0, Nat.mul_div_cancel _ hP]
    refine ⟨s', _, hs', hd, ?_, hc⟩
    intro x hx
    refine ⟨hlast x hx, ?_⟩
    rw [hc]
    exact Nat.div_le_div_right (hlast x hx)
  · intro s n h3 hflag hP h0 hn
    obtain ⟨s', hs', _, _, _⟩ :=
      schedTrace_task cfg tim task h1 h2 (List.range (n + 1)) s h3 hflag
    refine ⟨s', ?_⟩
    rw [hs', h0]
    have hcons := taskRun_consecutive (taskPeriod cfg tim s task) hP n 1 (le_refl 1)
      (by omega)
    simp only [Nat.sub_self, Nat.zero_div, Nat.mul_zero] at hcons
    have hw0 : wrapU32 (((0 : Nat) : Int) - ((0 : Nat) : Int)) = 0 := by decide
    have hstep0 : freqFlagStep (taskPeriod cfg tim s task) 0 0 0 = (0, 0) := by
      unfold freqFlagStep
      rw [hw0, if_neg (by omega)]
    have hmap : (List.range' 1 n).map (fun k => decide (taskPeriod cfg tim s task ∣ k)) =
        (List.range' 1 n).map (fun k => decide (0 < k ∧ taskPeriod cfg tim s task ∣ k)) := by
      apply List.map_congr_left
      intro k hk
      rw [List.mem_range'_1] at hk
      have hk0 : 0 < k := by omega
      simp [hk0]
    rw [List.range_eq_range', List.range'_succ]
    simp only [taskRun, hstep0, hw0, hcons, List.map_cons, hmap]
    have hne : ¬ taskPeriod cfg tim s task = 0 := by omega
    simp [hne]
  · intro s ticks h3 hflag hb
    obtain ⟨s', hs', hl, _, _⟩ := schedTrace_task cfg tim task h1 h2 ticks s h3 hflag
    have hc := taskRun_catchup (taskPeriod cfg tim s task) ticks (lastDue s.statics task) hb
    rw [hc] at hs' hl
    exact ⟨s', hs', hl⟩

/-- C18 (instance): the contact task (period 2) at 1000 Hz, called at ticks
`0, 1, ..., 6` from the initial state, has its flag raised at ticks 2, 4 and
6; after the delayed ticks `0, 7, 7, 8` it is flagged in the last three
calls and its last-due tick is 6. -/
theorem C18_scheduler_drift_free_witness :
    (∃ s', schedTrace cfg1000 tim10k Task.contact initSched (List.range (6 + 1)) =
      some (s', (List.range (6 + 1)).map
        (fun k => decide (0 < k ∧ taskPeriod cfg1000 tim10k initSched Task.contact ∣ k)))) ∧
    (List.range (6 + 1)).map
        (fun k => decide (0 < k ∧ taskPeriod cfg1000 tim10k initSched Task.contact ∣ k)) =
      [false, false, true, false, true, false, true] ∧
    (schedTrace cfg1000 tim10k Task.contact initSched [0, 7, 7, 8]).map
        (fun r => (lastDue r.1.statics Task.contact, r.2)) =
      some (6, [false, true, true, true]) :=
  ⟨(C18_scheduler_drift_free cfg1000 tim10k Task.contact (by decide) (by decide)).2.1
      initSched 6 (by decide) rfl (by decide) rfl (by decide),
   by decide, by decide⟩

/-! ## Interval timer and timer interrupt -/

theorem wrapS32_emod (x : Int) : wrapS32 x % 4294967296 = x % 4294967296 := by
  unfold wrapS32
  omega

/-- Reduction to `u32` only depends on the residue modulo `2^32`. -/
theorem wrapU32_congr {x y : Int} (h : x ≡ y [ZMOD 4294967296]) : wrapU32 x = wrapU32 y := by
  unfold wrapU32
  rw [h]

theorem wrapS32_modEq (x : Int) : wrapS32 x ≡ x [ZMOD 4294967296] :=
  wrapS32_emod x

/-- The count returned by `GetIntervalCnt` is the difference of the two
composed tick values modulo `2^32`. -/
theorem GetIntervalCnt_value (tim : TimConfig) (st : IntervalState) (r : TimerReads) :
    (GetIntervalCnt tim st r).1 =
      wrapU32 ((((sampledPair r).1 : Int) * ((tim.BASIC_TIM_PERIOD : Int) + 1) +
          ((sampledPair r).2 : Int)) -
        ((st.last_capture_cnt : Int) * ((tim.BASIC_TIM_PERIOD : Int) + 1) +
          (st.last_cnt : Int))) := by
  unfold GetIntervalCnt MINUS_S32
  apply wrapU32_congr
  have h1 := (wrapS32_modEq (((sampledPair r).1 : Int) - (st.last_capture_cnt : Int))).mul_right
    ((tim.BASIC_TIM_PERIOD : Int) + 1)
  have h2 := (wrapS32_modEq (wrapS32 (((sampledPair r).1 : Int) - (st.last_capture_cnt : Int)) *
    ((tim.BASIC_TIM_PERIOD : Int) + 1))).trans h1
  have h3 := (wrapS32_modEq (wrapS32 (wrapS32 (((sampledPair r).1 : Int) -
    (st.last_capture_cnt : Int)) * ((tim.BASIC_TIM_PERIOD : Int) + 1)) +
    ((sampledPair r).2 : Int))).trans (h2.add_right ((sampledPair r).2 : Int))
  have h4 := h3.sub_right (st.last_cnt : Int)
  refine h4.trans ?_
  have e : (((sampledPair r).1 : Int) - (st.last_capture_cnt : Int)) *
        ((tim.BASIC_TIM_PERIOD : Int) + 1) + ((sampledPair r).2 : Int) - (st.last_cnt : Int) =
      (((sampledPair r).1 : Int) * ((tim.BASIC_TIM_PERIOD : Int) + 1) +
          ((sampledPair r).2 : Int)) -
        ((st.last_capture_cnt : Int) * ((tim.BASIC_TIM_PERIOD : Int) + 1) +
          (st.last_cnt : Int)) := by
    ring
  rw [e]

/-- C12: whatever the stored pair is, if the pair that `GetIntervalCnt`
samples is `(overflow, cnt)`, the function returns
`((overflow*(BASIC_TIM_PERIOD+1) + cnt) - (last_overflow*(BASIC_TIM_PERIOD+1)
+ last_cnt)) mod 2^32` and stores exactly `(overflow, cnt)`.  When the
overflow counts are the residues modulo `2^32` of the true numbers of
overflows and the true elapsed tick count is below `2^32`, the value
returned is the true elapsed tick count, whether or not the low counter or
the overflow count has wrapped. -/
theorem C12_interval_count (tim : TimConfig) (st : IntervalState) (r : TimerReads)
    (overflow cnt : Nat) (hp : sampledPair r = (overflow, cnt)) :
    (GetIntervalCnt tim st r).1 =
      wrapU32 (((overflow : Int) * ((tim.BASIC_TIM_PERIOD : Int) + 1) + (cnt : Int)) -
        ((st.last_capture_cnt : Int) * ((tim.BASIC_TIM_PERIOD : Int) + 1) +
          (st.last_cnt : Int))) ∧
    (GetIntervalCnt tim st r).2 = { last_capture_cnt := overflow, last_cnt := cnt } ∧
    (∀ N_new N_old : Nat, overflow = N_new % 4294967296 →
      st.last_capture_cnt = N_old % 4294967296 →
      N_old * (tim.BASIC_TIM_PERIOD + 1) + st.last_cnt ≤
        N_new * (tim.BASIC_TIM_PERIOD + 1) + cnt →
      (N_new * (tim.BASIC_TIM_PERIOD + 1) + cnt) -
        (N_old * (tim.BASIC_TIM_PERIOD + 1) + st.last_cnt) < 4294967296 →
      (GetIntervalCnt tim st r).1 =
        (N_new * (tim.BASIC_TIM_PERIOD + 1) + cnt) -
          (N_old * (tim.BASIC_TIM_PERIOD + 1) + st.last_cnt)) := by
  have hv := GetIntervalCnt_value tim st r
  rw [hp] at hv
  refine ⟨hv, ?_, ?_⟩
  · unfold GetIntervalCnt
    rw [hp]
  · intro N_new N_old hn ho hle hlt
    rw [hv]
    have hcong : ((overflow : Int) * ((tim.BASIC_TIM_PERIOD : Int) + 1) + (cnt : Int)) -
          ((st.last_capture_cnt : Int) * ((tim.BASIC_TIM_PERIOD : Int) + 1) +
            (st.last_cnt : Int)) ≡
        (((N_new : Int) * ((tim.BASIC_TIM_PERIOD : Int) + 1) + (cnt : Int)) -
          ((N_old : Int) * ((tim.BASIC_TIM_PERIOD : Int) + 1) + (st.last_cnt : Int)))
        [ZMOD 4294967296] := by
      have a1 : (overflow : Int) ≡ (N_new : Int) [ZMOD 4294967296] := by
        rw [hn]
        push_cast
        exact Int.emod_emod_of_dvd _ (dvd_refl _)
      have a2 : (st.last_capture_cnt : Int) ≡ (N_old : Int) [ZMOD 4294967296] := by
        rw [ho]
        push_cast
        exact Int.emod_emod_of_dvd _ (dvd_refl _)
      exact ((a1.mul_right _).add_right _).sub ((a2.mul_right _).add_right _)
    rw [wrapU32_congr hcong]
    unfold wrapU32
    have hcast : ((N_new : Int) * ((tim.BASIC_TIM_PERIOD : Int) + 1) + (cnt : Int)) -
          ((N_old : Int) * ((tim.BASIC_TIM_PERIOD : Int) + 1) + (st.last_cnt : Int)) =
        (((N_new * (tim.BASIC_TIM_PERIOD + 1) + cnt) -
          (N_old * (tim.BASIC_TIM_PERIOD + 1) + st.last_cnt) : Nat) : Int) := by
      rw [Nat.cast_sub hle]
      push_cast
      ring
    rw [hcast]
    generalize (N_new * (tim.BASIC_TIM_PERIOD + 1) + cnt) -
      (N_old * (tim.BASIC_TIM_PERIOD + 1) + st.last_cnt) = e at hlt ⊢
    omega

/-- C12 (instance): with a counter period of 1000 ticks, from the stored
pair `(2^32 - 1, 900)` to the sampled pair `(0, 100)` both the low counter
and the overflow count have wrapped; the function returns 200. -/
theorem C12_interval_count_witness :
    (GetIntervalCnt tim10k ⟨4294967295, 900⟩ ⟨0, 100, 0, 100⟩).1 =
      wrapU32 ((((0 : Nat) : Int) * ((tim10k.BASIC_TIM_PERIOD : Int) + 1) +
          ((100 : Nat) : Int)) -
        (((4294967295 : Nat) : Int) * ((tim10k.BASIC_TIM_PERIOD : Int) + 1) +
          ((900 : Nat) : Int))) ∧
    (GetIntervalCnt tim10k ⟨4294967295, 900⟩ ⟨0, 100, 0, 100⟩).1 = 200 ∧
    (GetIntervalCnt tim10k ⟨4294967295, 900⟩ ⟨0, 100, 0, 100⟩).2 = ⟨0, 100⟩ :=
  ⟨(C12_interval_count tim10k ⟨4294967295, 900⟩ ⟨0, 100, 0, 100⟩ 0 100 (by decide)).1,
   by decide, by decide⟩

/-- C13: let the four reads of `GetIntervalCnt` be taken at instants
`T1 <= T2 <= T3 <= T4` of one hardware time, the overflow count being
`T div (BASIC_TIM_PERIOD+1)` (held in a `u32`) and the low counter
`T mod (BASIC_TIM_PERIOD+1)`, with at most one counter wrap between `T1` and
`T4` and a period that fits the 16-bit counter.  Then the pair the function
uses is the pair of one single instant `T` inside the read window. -/
theorem C13_sampled_pair_matches (tim : TimConfig) (T1 T2 T3 T4 : Nat)
    (hP : tim.BASIC_TIM_PERIOD ≤ 65535)
    (h12 : T1 ≤ T2) (h23 : T2 ≤ T3) (h34 : T3 ≤ T4)
    (hwrap : T4 / (tim.BASIC_TIM_PERIOD + 1) ≤ T1 / (tim.BASIC_TIM_PERIOD + 1) + 1) :
    ∃ T, T1 ≤ T ∧ T ≤ T4 ∧
      sampledPair
        { capture_1 := T1 / (tim.BASIC_TIM_PERIOD + 1) % 4294967296,
          cnt_1 := T2 % (tim.BASIC_TIM_PERIOD + 1),
          capture_2 := T3 / (tim.BASIC_TIM_PERIOD + 1) % 4294967296,
          cnt_2 := T4 % (tim.BASIC_TIM_PERIOD + 1) } =
        (T / (tim.BASIC_TIM_PERIOD + 1) % 4294967296, T % (tim.BASIC_TIM_PERIOD + 1)) := by
  have hM : 0 < tim.BASIC_TIM_PERIOD + 1 := Nat.succ_pos _
  have d12 := Nat.div_le_div_right (c := tim.BASIC_TIM_PERIOD + 1) h12
  have d23 := Nat.div_le_div_right (c := tim.BASIC_TIM_PERIOD + 1) h23
  have d34 := Nat.div_le_div_right (c := tim.BASIC_TIM_PERIOD + 1) h34
  have m2 := Nat.mod_lt T2 hM
  have m4 := Nat.mod_lt T4 hM
  unfold sampledPair
  by_cases hc : T1 / (tim.BASIC_TIM_PERIOD + 1) % 4294967296 ≠
      T3 / (tim.BASIC_TIM_PERIOD + 1) % 4294967296
  · refine ⟨T4, by omega, le_refl _, ?_⟩
    rw [if_pos hc]
    have e34 : T3 / (tim.BASIC_TIM_PERIOD + 1) = T4 / (tim.BASIC_TIM_PERIOD + 1) := by
      have : T1 / (tim.BASIC_TIM_PERIOD + 1) ≠ T3 / (tim.BASIC_TIM_PERIOD + 1) := by
        intro h
        rw [h] at hc
        exact hc rfl
      omega
    rw [e34, Nat.mod_eq_of_lt (by omega : T4 % (tim.BASIC_TIM_PERIOD + 1) < 65536)]
  · refine ⟨T2, h12, by omega, ?_⟩
    rw [if_neg hc]
    have e12 : T1 / (tim.BASIC_TIM_PERIOD + 1) = T2 / (tim.BASIC_TIM_PERIOD + 1) := by
      have hc' : T1 / (tim.BASIC_TIM_PERIOD + 1) % 4294967296 =
          T3 / (tim.BASIC_TIM_PERIOD + 1) % 4294967296 := not_not.mp hc
      omega
    rw [e12, Nat.mod_eq_of_lt (by omega : T2 % (tim.BASIC_TIM_PERIOD + 1) < 65536)]

/-- C13 (instance): with a counter period of 1000 ticks, reads at the
instants 1998, 1999, 2000, 2001 straddle a wrap; the pair used is `(2, 1)`,
the pair of instant 2001. -/
theorem C13_sampled_pair_matches_witness :
    (∃ T, 1998 ≤ T ∧ T ≤ 2001 ∧
      sampledPair
        { capture_1 := 1998 / (tim10k.BASIC_TIM_PERIOD + 1) % 4294967296,
          cnt_1 := 1999 % (tim10k.BASIC_TIM_PERIOD + 1),
          capture_2 := 2000 / (tim10k.BASIC_TIM_PERIOD + 1) % 4294967296,
          cnt_2 := 2001 % (tim10k.BASIC_TIM_PERIOD + 1) } =
        (T / (tim10k.BASIC_TIM_PERIOD + 1) % 4294967296,
         T % (tim10k.BASIC_TIM_PERIOD + 1))) ∧
    sampledPair ⟨1, 999, 2, 1⟩ = (2, 1) :=
  ⟨C13_sampled_pair_matches tim10k 1998 1999 2000 2001 (by decide) (by decide) (by decide)
      (by decide) (by decide),
   by decide⟩

/-- C15: with the divisor `D = BASIC_TIM_FREQ/MOTION_PREQ` at least 1 (and,
being an `int` constant, below `2^32`), the sub-loop counter initially 0 and
the overflow counter a `u32` value, after `n` interrupts the counter is
`n mod D`, hence below `D`; the overflow counter has grown by `n` modulo
`2^32`; the speed loop was triggered exactly on the interrupts numbered
`D, 2D, 3D, ...`, that is `n / D` times. -/
theorem C15_speed_loop_divider (cfg : Config) (tim : TimConfig) (s : IrqStatics)
    (hD : 1 ≤ tim.BASIC_TIM_FREQ / cfg.MOTION_PREQ)
    (hD32 : tim.BASIC_TIM_FREQ / cfg.MOTION_PREQ < 4294967296)
    (h0 : s.cnt2 = 0) (hov0 : s.BasicTimOverflowCount < 4294967296) (n : Nat) :
    (irqRun cfg tim s n).1.cnt2 = n % (tim.BASIC_TIM_FREQ / cfg.MOTION_PREQ) ∧
    (irqRun cfg tim s n).1.cnt2 < tim.BASIC_TIM_FREQ / cfg.MOTION_PREQ ∧
    (irqRun cfg tim s n).1.BasicTimOverflowCount =
      wrapU32 ((s.BasicTimOverflowCount : Int) + (n : Int)) ∧
    (irqRun cfg tim s n).2 =
      (List.range n).map (fun i => decide (tim.BASIC_TIM_FREQ / cfg.MOTION_PREQ ∣ i + 1)) ∧
    (irqRun cfg tim s n).2.count true = n / (tim.BASIC_TIM_FREQ / cfg.MOTION_PREQ) := by
  generalize hDdef : tim.BASIC_TIM_FREQ / cfg.MOTION_PREQ = D at hD hD32 ⊢
  have hpos : 0 < D := hD
  induction n with
  | zero =>
    refine ⟨?_, ?_, ?_, ?_, ?_⟩
    · simp [irqRun, h0]
    · simp only [irqRun, h0]
      exact hpos
    · simp only [irqRun]
      unfold wrapU32
      omega
    · simp [irqRun]
    · simp [irqRun]
  | succ n ih =>
    obtain ⟨hc, _, ho, hl, hk⟩ := ih
    have hlt := Nat.mod_lt n hpos
    obtain ⟨hyes, hno⟩ := succ_div_mod D n hpos
    have hw : wrapU32 (((irqRun cfg tim s n).1.cnt2 : Int) + 1) = n % D + 1 := by
      rw [hc]
      unfold wrapU32
      omega
    have hov : wrapU32 (((irqRun cfg tim s n).1.BasicTimOverflowCount : Int) + 1) =
        wrapU32 ((s.BasicTimOverflowCount : Int) + ((n + 1 : Nat) : Int)) := by
      rw [ho]
      unfold wrapU32
      push_cast
      omega
    have e1 : (irqRun cfg tim s (n + 1)).1 =
        (BasicTIM_IRQHandler cfg tim (irqRun cfg tim s n).1).1 := rfl
    have e2 : (irqRun cfg tim s (n + 1)).2 =
        (irqRun cfg tim s n).2 ++ [(BasicTIM_IRQHandler cfg tim (irqRun cfg tim s n).1).2] :=
      rfl
    by_cases hcase : n % D + 1 = D
    · obtain ⟨hq, hm⟩ := hyes hcase
      have hstep : BasicTIM_IRQHandler cfg tim (irqRun cfg tim s n).1 =
          ({ BasicTimOverflowCount :=
              wrapU32 ((s.BasicTimOverflowCount : Int) + ((n + 1 : Nat) : Int)),
             cnt2 := 0 }, true) := by
        unfold BasicTIM_IRQHandler
        rw [hDdef, hw, if_pos (by omega), hov]
      have hdvd : D ∣ n + 1 := Nat.dvd_of_mod_eq_zero hm
      rw [e1, e2, hstep]
      refine ⟨hm.symm, hpos, rfl, ?_, ?_⟩
      · rw [List.range_succ, List.map_append, hl]
        simp [hdvd]
      · rw [List.count_append, hk, hq]
        simp
    · obtain ⟨hq, hm⟩ := hno hcase
      have hstep : BasicTIM_IRQHandler cfg tim (irqRun cfg tim s n).1 =
          ({ BasicTimOverflowCount :=
              wrapU32 ((s.BasicTimOverflowCount : Int) + ((n + 1 : Nat) : Int)),
             cnt2 := n % D + 1 }, false) := by
        unfold BasicTIM_IRQHandler
        rw [hDdef, hw, if_neg (by omega), hov]
      have hdvd : ¬ D ∣ n + 1 := by
        intro hd
        have := Nat.mod_eq_zero_of_dvd hd
        omega
      rw [e1, e2, hstep]
      refine ⟨hm.symm, by show n % D + 1 < D; omega, rfl, ?_, ?_⟩
      · rw [List.range_succ, List.map_append, hl]
        simp [hdvd]
      · rw [List.count_append, hk, hq]
        simp

/-- C15 (instance): with `BASIC_TIM_FREQ = 10000` and `MOTION_PREQ = 1000`
the divisor is 10; over 12 interrupts the speed loop is triggered once, on
the 10th. -/
theorem C15_speed_loop_divider_witness :
    ((irqRun cfg1000 tim10k ⟨7, 0⟩ 12).1.cnt2 =
        12 % (tim10k.BASIC_TIM_FREQ / cfg1000.MOTION_PREQ) ∧
      (irqRun cfg1000 tim10k ⟨7, 0⟩ 12).1.cnt2 <
        tim10k.BASIC_TIM_FREQ / cfg1000.MOTION_PREQ ∧
      (irqRun cfg1000 tim10k ⟨7, 0⟩ 12).1.BasicTimOverflowCount =
        wrapU32 (((⟨7, 0⟩ : IrqStatics).BasicTimOverflowCount : Int) + ((12 : Nat) : Int)) ∧
      (irqRun cfg1000 tim10k ⟨7, 0⟩ 12).2 =
        (List.range 12).map
          (fun i => decide (tim10k.BASIC_TIM_FREQ / cfg1000.MOTION_PREQ ∣ i + 1)) ∧
      (irqRun cfg1000 tim10k ⟨7, 0⟩ 12).2.count true =
        12 / (tim10k.BASIC_TIM_FREQ / cfg1000.MOTION_PREQ)) ∧
    tim10k.BASIC_TIM_FREQ / cfg1000.MOTION_PREQ = 10 ∧
    (List.range 12).map
        (fun i => decide (tim10k.BASIC_TIM_FREQ / cfg1000.MOTION_PREQ ∣ i + 1)) =
      [false, false, false, false, false, false, false, false, false, true, false, false] :=
  ⟨C15_speed_loop_divider cfg1000 tim10k ⟨7, 0⟩ (by decide) (by decide) rfl (by decide) 12,
   by decide, by decide⟩

/-- C16 (the code at the failing input): with `sV = 3000` and
`period = 1000000` the product `3000000000` does not fit the `s32` in which
lines 62 and 73 compute it.  The code yields the delta `-1294` and the
remainder `-967296`, where the exact quotient and remainder by 1000000 are
`3000` and `0`; the same happens on the angular path, also with the period
of a 500 Hz motion loop, `2000`, at `sW = 1100000` (1100 degrees per
second).  When product and sum are representable, delta and remainder are
the exact quotient and remainder. -/
theorem C16_product_wraps_in_s32 :
    fitsS32 3000 ∧ fitsS32 1000000 ∧
    distanceStep 0 3000 1000000 = (-1294, -967296) ∧
    thetaStep 0 3000 1000000 = (-1294, -967296) ∧
    Int.tdiv (3000 * 1000000 + 0) 1000000 = 3000 ∧
    Int.tmod (3000 * 1000000 + 0) 1000000 = 0 ∧
    fitsS32 1100000 ∧ fitsS32 2000 ∧
    thetaStep 0 1100000 2000 = (-2094, -967296) ∧
    Int.tdiv (1100000 * 2000 + 0) 1000000 = 2200 ∧
    (∀ rem v p : Int, fitsS32 (v * p) → fitsS32 (v * p + rem) →
      distanceStep rem v p =
        (Int.tdiv (v * p + rem) 1000000, Int.tmod (v * p + rem) 1000000)) := by
  refine ⟨by decide, by decide, by decide, by decide, by decide, by decide,
    by decide, by decide, by decide, by decide, ?_⟩
  intro rem v p h1 h2
  unfold distanceStep distanceSum
  rw [wrapS32_of_fits h1, wrapS32_of_fits h2]

/-- One call conserves `velocity * period` and leaves a remainder below
the scale, whatever the carried remainder was. -/
theorem CarLocationRun_conserves_any (inputs : List (CSpeedVW × Int)) :
    ∀ s : LocationStatics × CDistanceValue,
      linearNoOverflowRun s inputs = true →
      1000000 * ((CarLocationRun s inputs).2.distance - s.2.distance) +
          (CarLocationRun s inputs).1.delta_distance_remainder =
        s.1.delta_distance_remainder + (inputs.map (fun i => i.1.sV * i.2)).sum ∧
      (inputs ≠ [] →
        -1000000 < (CarLocationRun s inputs).1.delta_distance_remainder ∧
        (CarLocationRun s inputs).1.delta_distance_remainder < 1000000) := by
  intro s hno
  cases inputs with
  | nil => simp [CarLocationRun]
  | cons i rest =>
    simp only [linearNoOverflowRun, Bool.and_eq_true, decide_eq_true_eq] at hno
    obtain ⟨hstep, hrest⟩ := hno
    obtain ⟨hc, hlo, hhi⟩ := CarLocationUpdate_conserves s.1 s.2 i.1 i.2 hstep
    obtain ⟨ihc, ihlo, ihhi⟩ :=
      CarLocationRun_conserves rest (CarLocationUpdate s.1 s.2 i.1 i.2) hrest hlo hhi
    simp only [CarLocationRun, List.map_cons, List.sum_cons]
    refine ⟨by omega, fun _ => ⟨ihlo, ihhi⟩⟩

/-- A run without overflow stays without overflow when cut short. -/
theorem linearNoOverflowRun_take (inputs : List (CSpeedVW × Int)) :
    ∀ (s : LocationStatics × CDistanceValue) (k : Nat),
      linearNoOverflowRun s inputs = true →
      linearNoOverflowRun s (inputs.take k) = true := by
  induction inputs with
  | nil =>
    intro s k _
    simp [linearNoOverflowRun]
  | cons i rest ih =>
    intro s k hno
    cases k with
    | zero => simp [linearNoOverflowRun]
    | succ k =>
      simp only [linearNoOverflowRun, Bool.and_eq_true, decide_eq_true_eq] at hno
      simp only [List.take_succ_cons, linearNoOverflowRun, Bool.and_eq_true,
        decide_eq_true_eq]
      exact ⟨hno.1, ih _ k hno.2⟩

/-- C19: for every sequence of calls with arbitrary velocities `v_i` and
periods `p_i` and no 32-bit overflow on the linear path, after each call
(after the first `k` calls, for every `k`) the conservation law
`1000000 * (distance_after - distance_before) + remainder_after =
remainder_before + sum of v_i * p_i` holds, and after at least one call
`|remainder_after| < 1000000`. -/
theorem C19_distance_conservation (s : LocationStatics × CDistanceValue)
    (inputs : List (CSpeedVW × Int)) (hno : linearNoOverflowRun s inputs = true) (k : Nat) :
    1000000 * ((CarLocationRun s (inputs.take k)).2.distance - s.2.distance) +
        (CarLocationRun s (inputs.take k)).1.delta_distance_remainder =
      s.1.delta_distance_remainder + ((inputs.take k).map (fun i => i.1.sV * i.2)).sum ∧
    (inputs.take k ≠ [] →
      |(CarLocationRun s (inputs.take k)).1.delta_distance_remainder| < 1000000) := by
  obtain ⟨hc, hb⟩ :=
    CarLocationRun_conserves_any (inputs.take k) s (linearNoOverflowRun_take inputs s k hno)
  refine ⟨hc, fun hne => ?_⟩
  obtain ⟨hlo, hhi⟩ := hb hne
  rw [abs_lt]
  exact ⟨hlo, hhi⟩

/-- C19 (instance): three calls with velocities 333, -250, 7 and periods
1000, 2000, 999 from distance 5 and remainder 999999. -/
theorem C19_distance_conservation_witness :
    1000000 * ((CarLocationRun (⟨0, 999999⟩, ⟨5, 0⟩)
          ([(⟨333, 0⟩, 1000), (⟨-250, 0⟩, 2000), (⟨7, 0⟩, 999)].take 3)).2.distance -
        (5 : Int)) +
        (CarLocationRun (⟨0, 999999⟩, ⟨5, 0⟩)
          ([(⟨333, 0⟩, 1000), (⟨-250, 0⟩, 2000),
            (⟨7, 0⟩, 999)].take 3)).1.delta_distance_remainder =
      (999999 : Int) +
        (([((⟨333, 0⟩ : CSpeedVW), (1000 : Int)), (⟨-250, 0⟩, 2000),
            (⟨7, 0⟩, 999)].take 3).map (fun i => i.1.sV * i.2)).sum :=
  (C19_distance_conservation (⟨0, 999999⟩, ⟨5, 0⟩)
    [(⟨333, 0⟩, 1000), (⟨-250, 0⟩, 2000), (⟨7, 0⟩, 999)] (by decide) 3).1

/-- C20: in every state reachable from the initial state by controller
cycles with any inputs (and `SetVWValue` calls in between), the controller's
protecting flag equals the handler's `is_protect`; whenever `is_protect` is
false, `time_cnt` is 0; and whenever `is_protect` is true the active command
has `sW = 0` and `sV` equal to `-150` or `0`. -/
theorem C20_protection_invariant (cfg : Config) (s : MotionStatics)
    (h : Reachable cfg s) :
    s.is_protect = s.handler.is_protect ∧
    (s.handler.is_protect = false → s.handler.time_cnt = 0) ∧
    (s.handler.is_protect = true →
      s.target_vw.sW = 0 ∧ (s.target_vw.sV = -150 ∨ s.target_vw.sV = 0)) := by
  obtain ⟨ha, hb, hc⟩ := Reachable_ProtectInv cfg s h
  refine ⟨ha, hb, fun hp => ?_⟩
  rcases hc hp with ht | ht
  · rw [ht]
    exact ⟨rfl, Or.inl rfl⟩
  · rw [ht]
    exact ⟨rfl, Or.inr rfl⟩

/-- C20 (instance): the state reached at 500 Hz by staging `(100, 0)`, one
quiet cycle, and one cycle with a hazard and a fault bit. -/
theorem C20_protection_invariant_witness :
    zeroedProtectState.is_protect = zeroedProtectState.handler.is_protect ∧
    (zeroedProtectState.handler.is_protect = false →
      zeroedProtectState.handler.time_cnt = 0) ∧
    (zeroedProtectState.handler.is_protect = true →
      zeroedProtectState.target_vw.sW = 0 ∧
      (zeroedProtectState.target_vw.sV = -150 ∨ zeroedProtectState.target_vw.sV = 0)) :=
  C20_protection_invariant cfg500 zeroedProtectState
    (Reachable_runCycles cfg500 [quietInput 0 0, quietInput 1 1]
      (SetVWValue initMotion 100 0 0) (zeroedProtectState, [⟨100, 0⟩, ⟨0, 0⟩])
      (Reachable.setVW initMotion 100 0 0 Reachable.init) (by decide))

/-! ## Release of the protection -/

/-- For a `u16` frequency the bound of line 174 with the creep speed is the
natural quotient `20 * freq / 150`. -/
theorem release_bound_eq (freq : Nat) (hfreq : freq < 65536) :
    cabs (Int.tdiv (20 * (freq : Int)) (-150)) = ((20 * freq / 150 : Nat) : Int) := by
  have h1 : Int.tdiv (20 * (freq : Int)) (-150) = -((20 * (freq : Int)) / 150) := by
    rw [Int.tdiv_neg, Int.tdiv_eq_ediv (by omega) (by omega)]
  rw [h1]
  unfold cabs wrapS32
  push_cast
  split_ifs <;> omega

/-- Running over a concatenation is running over the parts in turn. -/
theorem handlerRun_append (freq : Nat) (a b : List Nat) :
    ∀ r : HandlerResult,
      handlerRun freq r (a ++ b) =
        (handlerRun freq r a).bind (fun r' => handlerRun freq r' b) := by
  induction a with
  | nil =>
    intro r
    simp [handlerRun]
  | cons d rest ih =>
    intro r
    simp only [List.cons_append, handlerRun]
    cases DropAndCollisionSensorHandler r.statics r.target d freq with
    | none => simp
    | some r1 => exact ih r1

/-- A hazard-free call while protecting with the creep: the release counter
is incremented, and protection is released exactly if it then exceeds the
bound. -/
theorem handler_release_step (st : HandlerStatics) (freq : Nat) (hfreq : freq < 65536)
    (hp : st.is_protect = true) (hd : st.dealy_cnt ≤ 20 * freq / 150) :
    DropAndCollisionSensorHandler st ⟨-150, 0⟩ 0 freq =
      if st.dealy_cnt = 20 * freq / 150 then
        some ⟨⟨false, 0, st.dealy_cnt + 1⟩, ⟨0, 0⟩, false⟩
      else
        some ⟨{ st with dealy_cnt := st.dealy_cnt + 1 }, ⟨-150, 0⟩, true⟩ := by
  have hb := release_bound_eq freq hfreq
  have hinc : incU16 st.dealy_cnt = st.dealy_cnt + 1 := by
    unfold incU16
    omega
  unfold DropAndCollisionSensorHandler
  simp only [hp, hinc, hb]
  by_cases he : st.dealy_cnt = 20 * freq / 150
  · have hgt : ((st.dealy_cnt + 1 : Nat) : Int) > ((20 * freq / 150 : Nat) : Int) := by
      omega
    simp [he, hgt]
  · have hgt : ¬ ((st.dealy_cnt + 1 : Nat) : Int) > ((20 * freq / 150 : Nat) : Int) := by
      omega
    simp [he, hgt]
    omega

/-- While protecting with the creep, a run of calls that has not used up the
release bound and does not reach the timeout stays protecting with the
creep; the release counter counts the hazard-free calls and is left alone by
the hazard calls. -/
theorem handlerRun_waits (freq : Nat) (hfreq : freq < 65536) (drops : List Nat) :
    ∀ r : HandlerResult, r.statics.is_protect = true → r.target = ⟨-150, 0⟩ →
      r.statics.dealy_cnt + drops.count 0 ≤ 20 * freq / 150 →
      r.statics.time_cnt + drops.countP (fun d => decide (d ≠ 0)) ≤ 3 * freq + 1 →
      ∃ r', handlerRun freq r drops = some r' ∧
        r'.statics.is_protect = true ∧ r'.target = ⟨-150, 0⟩ ∧
        r'.statics.dealy_cnt = r.statics.dealy_cnt + drops.count 0 ∧
        r'.statics.time_cnt ≤ r.statics.time_cnt + drops.countP (fun d => decide (d ≠ 0)) := by
  induction drops with
  | nil =>
    intro r hp ht _ _
    exact ⟨r, rfl, hp, ht, by simp, by simp⟩
  | cons d rest ih =>
    intro r hp ht hd htime
    by_cases hz : d = 0
    · subst hz
      simp only [List.count_cons_self] at hd
      have hcp : (0 :: rest).countP (fun d => decide (d ≠ 0)) =
          rest.countP (fun d => decide (d ≠ 0)) := by
        simp
      rw [hcp] at htime
      have hstep := handler_release_step r.statics freq hfreq hp (by omega)
      rw [if_neg (by omega), ← ht] at hstep
      obtain ⟨r', hr', hp', ht', hd', htime'⟩ :=
        ih ⟨{ r.statics with dealy_cnt := r.statics.dealy_cnt + 1 }, r.target, true⟩
          hp ht (by simp only []; omega) htime
      refine ⟨r', ?_, hp', ht', ?_, ?_⟩
      · simp only [handlerRun, hstep]
        exact hr'
      · rw [hd']
        simp only [List.count_cons_self]
        omega
      · rw [hcp]
        exact htime'
    · have hcp : (d :: rest).countP (fun d => decide (d ≠ 0)) =
          rest.countP (fun d => decide (d ≠ 0)) + 1 := by
        simp [hz]
      have hc0 : (d :: rest).count 0 = rest.count 0 := by
        rw [List.count_cons_of_ne (fun h => hz h.symm)]
      rw [hcp] at htime
      rw [hc0] at hd
      obtain ⟨r1, hr1, _, hp1, hd1, ht1, htg1⟩ :=
        handler_hazard r.statics r.target d freq hz (Or.inl hp)
      have hnm : ¬ (r.target.sV > 0 ∨ r.target.sW ≠ 0) := by
        rw [ht]
        decide
      have hnt : ¬ ((r.statics.time_cnt : Int) > 3 * (freq : Int)) := by omega
      rw [if_neg hnm] at hd1
      rw [if_neg hnt] at ht1 htg1
      have hinc : incU16 r.statics.time_cnt ≤ r.statics.time_cnt + 1 := by
        unfold incU16
        omega
      obtain ⟨r', hr', hp', ht', hd', htime'⟩ :=
        ih r1 hp1 htg1 (by rw [hd1]; exact hd) (by rw [ht1]; omega)
      refine ⟨r', ?_, hp', ht', ?_, ?_⟩
      · simp only [handlerRun, hr1]
        exact hr'
      · rw [hd', hd1, hc0]
      · rw [hcp]
        rw [ht1] at htime'
        omega

/-- C17: while protecting with the creep `sV = -150` at a `u16` check
frequency `freq >= 1`, starting with the release counter at 0 (as set when
protection was triggered) and as long as the timeout is not reached: after
any calls of which at most `|20*freq / -150| = 20*freq/150` were
hazard-free the handler still protects with the creep and the release
counter equals the number of hazard-free calls (hazard calls in between do
not reset it); on the next hazard-free call after exactly that many,
protection is released with command `(0, 0)` and timeout counter 0.  The
reverse travel commanded over the counted calls, `count * 150 / freq`, is at
least 20, and for `freq = 500` the releasing call is the 67th hazard-free
one. -/
theorem C17_release_after_clearance (freq : Nat) (hfreq1 : 1 ≤ freq) (hfreq : freq < 65536)
    (st : HandlerStatics) (hp : st.is_protect = true) (hd0 : st.dealy_cnt = 0)
    (drops : List Nat)
    (htime : st.time_cnt + drops.countP (fun d => decide (d ≠ 0)) ≤ 3 * freq + 1) :
    cabs (Int.tdiv (20 * (freq : Int)) (-150)) = ((20 * freq / 150 : Nat) : Int) ∧
    (drops.count 0 ≤ 20 * freq / 150 →
      ∃ r, handlerRun freq ⟨st, ⟨-150, 0⟩, true⟩ drops = some r ∧
        r.statics.is_protect = true ∧ r.target = ⟨-150, 0⟩ ∧
        r.statics.dealy_cnt = drops.count 0) ∧
    (drops.count 0 = 20 * freq / 150 →
      handlerRun freq ⟨st, ⟨-150, 0⟩, true⟩ (drops ++ [0]) =
        some ⟨⟨false, 0, 20 * freq / 150 + 1⟩, ⟨0, 0⟩, false⟩) ∧
    20 * freq ≤ (20 * freq / 150 + 1) * 150 ∧
    20 ≤ (20 * freq / 150 + 1) * 150 / freq ∧
    (freq = 500 → 20 * freq / 150 + 1 = 67) := by
  have hwait : drops.count 0 ≤ 20 * freq / 150 →
      ∃ r, handlerRun freq ⟨st, ⟨-150, 0⟩, true⟩ drops = some r ∧
        r.statics.is_protect = true ∧ r.target = ⟨-150, 0⟩ ∧
        r.statics.dealy_cnt = drops.count 0 := by
    intro hc
    obtain ⟨r, hr, hpr, htr, hdr, _⟩ :=
      handlerRun_waits freq hfreq drops ⟨st, ⟨-150, 0⟩, true⟩ hp rfl
        (by simp only [hd0]; omega) htime
    refine ⟨r, hr, hpr, htr, ?_⟩
    rw [hdr]
    simp only [hd0]
    omega
  have htravel : 20 * freq ≤ (20 * freq / 150 + 1) * 150 := by omega
  refine ⟨release_bound_eq freq hfreq, hwait, ?_, htravel, ?_, ?_⟩
  · intro hc
    obtain ⟨r, hr, hpr, htr, hdr⟩ := hwait (le_of_eq hc)
    have hstep := handler_release_step r.statics freq hfreq hpr (by omega)
    rw [if_pos (by omega), ← htr] at hstep
    rw [hdr, hc] at hstep
    rw [handlerRun_append, hr]
    show handlerRun freq r [0] = _
    simp only [handlerRun, hstep]
  · exact (Nat.le_div_iff_mul_le (by omega)).2 htravel
  · intro h500
    subst h500
    decide

/-- C17 (instance): `freq = 500`, bound `20*500/150 = 66`, starting right
after the triggering call (timeout counter 1, release counter 0).  After 33
hazard-free calls, 2 hazard calls and 33 more hazard-free calls the handler
still protects with the creep and the release counter is 66, the two hazard
calls not having reset it; the next hazard-free call, the 67th, releases.
With `freq = 15` (bound 2) the same on a run short enough to evaluate: after
`[0, 7, 0]` the counter is 2 and the third hazard-free call releases. -/
theorem C17_release_after_clearance_witness :
    (∃ r, handlerRun 500 ⟨⟨true, 1, 0⟩, ⟨-150, 0⟩, true⟩
        (List.replicate 33 0 ++ [1, 1] ++ List.replicate 33 0) = some r ∧
      r.statics.is_protect = true ∧ r.target = ⟨-150, 0⟩ ∧
      r.statics.dealy_cnt =
        (List.replicate 33 0 ++ [1, 1] ++ List.replicate 33 0).count 0) ∧
    (List.replicate 33 0 ++ [1, 1] ++ List.replicate 33 0).count 0 = 66 ∧
    handlerRun 500 ⟨⟨true, 1, 0⟩, ⟨-150, 0⟩, true⟩
        ((List.replicate 33 0 ++ [1, 1] ++ List.replicate 33 0) ++ [0]) =
      some ⟨⟨false, 0, 20 * 500 / 150 + 1⟩, ⟨0, 0⟩, false⟩ ∧
    20 * 500 / 150 + 1 = 67 ∧
    handlerRun 15 ⟨⟨true, 1, 0⟩, ⟨-150, 0⟩, true⟩ [0, 7, 0] =
      some ⟨⟨true, 2, 2⟩, ⟨-150, 0⟩, true⟩ ∧
    handlerRun 15 ⟨⟨true, 1, 0⟩, ⟨-150, 0⟩, true⟩ ([0, 7, 0] ++ [0]) =
      some ⟨⟨false, 0, 20 * 15 / 150 + 1⟩, ⟨0, 0⟩, false⟩ :=
  ⟨(C17_release_after_clearance 500 (by decide) (by decide) ⟨true, 1, 0⟩ rfl rfl
      (List.replicate 33 0 ++ [1, 1] ++ List.replicate 33 0) (by decide)).2.1 (by decide),
   by decide,
   (C17_release_after_clearance 500 (by decide) (by decide) ⟨true, 1, 0⟩ rfl rfl
      (List.replicate 33 0 ++ [1, 1] ++ List.replicate 33 0) (by decide)).2.2.1 (by decide),
   by decide,
   by decide,
   (C17_release_after_clearance 15 (by decide) (by decide) ⟨true, 1, 0⟩ rfl rfl
      [0, 7, 0] (by decide)).2.2.1 (by decide)⟩

/-! ## The task orchestrator -/

theorem taskStaticsAfter_zero : taskStaticsAfter 0 = ⟨1, 1, 0⟩ := rfl

theorem taskStaticsAfter_calib (j : Nat) (h1 : 1 ≤ j) (h2 : j ≤ 500) :
    taskStaticsAfter j = ⟨0, 1, j⟩ := by
  unfold taskStaticsAfter
  rw [if_neg (by omega), if_pos h2]

theorem taskStaticsAfter_run (j : Nat) (h : 500 < j) : taskStaticsAfter j = ⟨0, 0, 500⟩ := by
  unfold taskStaticsAfter
  rw [if_neg (by omega), if_neg (by omega)]

/-- An invocation that finds the flag clear does nothing. -/
theorem MotionCtrlTask_idle (cfg : Config) (s : TaskState) (inp : CycleInput)
    (hf : s.RunFlag_motion = 0) : MotionCtrlTask cfg s inp = some (s, []) := by
  unfold MotionCtrlTask
  rw [if_pos hf]

/-- A flagged invocation among the first 500: calibration, no controller. -/
theorem MotionCtrlTask_calibrating (cfg : Config) (s : TaskState) (inp : CycleInput)
    (j : Nat) (hs : s.statics = taskStaticsAfter j) (hf : s.RunFlag_motion ≠ 0)
    (hj : j < 500) :
    MotionCtrlTask cfg s inp =
      some ({ statics := taskStaticsAfter (j + 1), RunFlag_motion := 0, motion := s.motion },
        (if j = 0 then
            [TaskEffect.MotorPIDInit, TaskEffect.ChassisMotorDriverEnable true]
          else []) ++ [TaskEffect.InfraredDrop_InitData true]) := by
  unfold MotionCtrlTask
  rw [if_neg hf]
  by_cases h0 : j = 0
  · subst h0
    rw [taskStaticsAfter_zero] at hs
    rw [taskStaticsAfter_calib 1 (le_refl 1) (by omega)]
    simp [hs, incU16]
  · rw [taskStaticsAfter_calib j (by omega) (by omega)] at hs
    rw [taskStaticsAfter_calib (j + 1) (by omega) (by omega)]
    have hinc : incU16 j = j + 1 := by
      unfold incU16
      omega
    simp [hs, h0, hj, hinc]

/-- The 501st flagged invocation: the sensor is switched to normal sampling
and the controller runs. -/
theorem MotionCtrlTask_first_run (cfg : Config) (s : TaskState) (inp : CycleInput)
    (hs : s.statics = taskStaticsAfter 500) (hf : s.RunFlag_motion ≠ 0) :
    MotionCtrlTask cfg s inp =
      (ChassisMovingController cfg s.motion inp).map (fun r =>
        ({ statics := taskStaticsAfter 501, RunFlag_motion := 0, motion := r.1 },
         [TaskEffect.InfraredDrop_InitData false, TaskEffect.SpeedLoop_SetTargetSpeed r.2])) := by
  unfold MotionCtrlTask
  rw [if_neg hf]
  rw [taskStaticsAfter_calib 500 (by omega) (le_refl 500)] at hs
  rw [taskStaticsAfter_run 501 (by omega)]
  cases hc : ChassisMovingController cfg s.motion inp with
  | none => simp [hs, hc]
  | some r => simp [hs, hc]

/-- Every later flagged invocation: the controller runs. -/
theorem MotionCtrlTask_running (cfg : Config) (s : TaskState) (inp : CycleInput)
    (j : Nat) (hs : s.statics = taskStaticsAfter j) (hf : s.RunFlag_motion ≠ 0)
    (hj : 500 < j) :
    MotionCtrlTask cfg s inp =
      (ChassisMovingController cfg s.motion inp).map (fun r =>
        ({ statics := taskStaticsAfter (j + 1), RunFlag_motion := 0, motion := r.1 },
         [TaskEffect.SpeedLoop_SetTargetSpeed r.2])) := by
  unfold MotionCtrlTask
  rw [if_neg hf]
  rw [taskStaticsAfter_run j hj] at hs
  rw [taskStaticsAfter_run (j + 1) (by omega)]
  cases hc : ChassisMovingController cfg s.motion inp with
  | none => simp [hs, hc]
  | some r => simp [hs, hc]

/-- A flagged invocation that returns has counted itself and cleared the
flag. -/
theorem MotionCtrlTask_flagged (cfg : Config) (s : TaskState) (inp : CycleInput)
    (j : Nat) (hs : s.statics = taskStaticsAfter j) (hf : s.RunFlag_motion ≠ 0)
    (r : TaskState × List TaskEffect) (h : MotionCtrlTask cfg s inp = some r) :
    r.1.statics = taskStaticsAfter (j + 1) ∧ r.1.RunFlag_motion = 0 := by
  rcases Nat.lt_trichotomy j 500 with hj | hj | hj
  · rw [MotionCtrlTask_calibrating cfg s inp j hs hf hj] at h
    simp only [Option.some.injEq] at h
    subst h
    exact ⟨rfl, rfl⟩
  · subst hj
    rw [MotionCtrlTask_first_run cfg s inp hs hf] at h
    cases hc : ChassisMovingController cfg s.motion inp with
    | none => rw [hc] at h; cases h
    | some c =>
      rw [hc] at h
      simp only [Option.map_some', Option.some.injEq] at h
      subst h
      exact ⟨rfl, rfl⟩
  · rw [MotionCtrlTask_running cfg s inp j hs hf hj] at h
    cases hc : ChassisMovingController cfg s.motion inp with
    | none => rw [hc] at h; cases h
    | some c =>
      rw [hc] at h
      simp only [Option.map_some', Option.some.injEq] at h
      subst h
      exact ⟨rfl, rfl⟩

/-- After any completed run the statics are those of the number of flagged
invocations, and the flag is clear. -/
theorem motionTaskRun_statics (cfg : Config) (calls : List (Bool × CycleInput)) :
    ∀ (j : Nat) (s : TaskState), s.statics = taskStaticsAfter j → s.RunFlag_motion = 0 →
      ∀ r, motionTaskRun cfg s calls = some r →
        r.1.statics = taskStaticsAfter (j + calls.countP (fun c => c.1)) ∧
        r.1.RunFlag_motion = 0 := by
  induction calls with
  | nil =>
    intro j s hs hf r h
    simp only [motionTaskRun, Option.some.injEq] at h
    subst h
    exact ⟨by simpa using hs, hf⟩
  | cons c rest ih =>
    intro j s hs hf r h
    unfold motionTaskRun at h
    cases hm : MotionCtrlTask cfg
        { s with RunFlag_motion := if c.1 then 1 else s.RunFlag_motion } c.2 with
    | none => rw [hm] at h; cases h
    | some r1 =>
      rw [hm] at h
      simp only [] at h
      cases hq : motionTaskRun cfg r1.1 rest with
      | none => rw [hq] at h; cases h
      | some q =>
        rw [hq] at h
        simp only [Option.some.injEq] at h
        subst h
        cases hc1 : c.1 with
        | false =>
          rw [hc1] at hm
          rw [MotionCtrlTask_idle cfg _ c.2 (by simpa using hf)] at hm
          simp only [Option.some.injEq] at hm
          subst hm
          have := ih j _ hs (by simpa using hf) q hq
          simpa [hc1] using this
        | true =>
          rw [hc1] at hm
          obtain ⟨h1, h2⟩ := MotionCtrlTask_flagged cfg
            { s with RunFlag_motion := if true = true then 1 else s.RunFlag_motion }
            c.2 j hs (by simp) r1 hm
          have := ih (j + 1) r1.1 h1 h2 q hq
          have hcnt : (c :: rest).countP (fun c => c.1) = rest.countP (fun c => c.1) + 1 := by
            simp [hc1]
          rw [hcnt]
          have e : j + (rest.countP (fun c => c.1) + 1) =
              j + 1 + rest.countP (fun c => c.1) := by omega
          rw [e]
          exact this

/-- A run that stays within the first 500 flagged invocations completes,
never touches the controller state and forwards no command. -/
theorem motionTaskRun_calibration (cfg : Config) (calls : List (Bool × CycleInput)) :
    ∀ (j : Nat) (s : TaskState), s.statics = taskStaticsAfter j → s.RunFlag_motion = 0 →
      j + calls.countP (fun c => c.1) ≤ 500 →
      ∃ r, motionTaskRun cfg s calls = some r ∧ r.1.motion = s.motion ∧
        ∀ e ∈ r.2, ∀ x ∈ e, x.isForward = false := by
  induction calls with
  | nil =>
    intro j s _ _ _
    exact ⟨(s, []), rfl, rfl, by simp⟩
  | cons c rest ih =>
    intro j s hs hf hle
    cases hc1 : c.1 with
    | false =>
      have hcnt : (c :: rest).countP (fun c => c.1) = rest.countP (fun c => c.1) := by
        simp [hc1]
      rw [hcnt] at hle
      have hm : MotionCtrlTask cfg
          { s with RunFlag_motion := if c.1 then 1 else s.RunFlag_motion } c.2 =
          some ({ s with RunFlag_motion := if c.1 then 1 else s.RunFlag_motion }, []) :=
        MotionCtrlTask_idle cfg _ c.2 (by simpa [hc1] using hf)
      obtain ⟨q, hq, hqm, hqe⟩ :=
        ih j { s with RunFlag_motion := if c.1 then 1 else s.RunFlag_motion } hs
          (by simpa [hc1] using hf) hle
      refine ⟨(q.1, [] :: q.2), ?_, hqm, ?_⟩
      · simp only [motionTaskRun, hm, hq]
      · intro e he x hx
        rcases List.mem_cons.1 he with h | h
        · subst h
          cases hx
        · exact hqe e h x hx
    | true =>
      have hcnt : (c :: rest).countP (fun c => c.1) = rest.countP (fun c => c.1) + 1 := by
        simp [hc1]
      rw [hcnt] at hle
      have hm := MotionCtrlTask_calibrating cfg
        { s with RunFlag_motion := if c.1 then 1 else s.RunFlag_motion } c.2 j hs
        (by simp [hc1]) (by omega)
      obtain ⟨q, hq, hqm, hqe⟩ :=
        ih (j + 1)
          { statics := taskStaticsAfter (j + 1), RunFlag_motion := 0, motion := s.motion }
          rfl rfl (by omega)
      refine ⟨(q.1, ((if j = 0 then
          [TaskEffect.MotorPIDInit, TaskEffect.ChassisMotorDriverEnable true]
        else []) ++ [TaskEffect.InfraredDrop_InitData true]) :: q.2), ?_, hqm, ?_⟩
      · simp only [motionTaskRun, hm, hq]
      · intro e he x hx
        rcases List.mem_cons.1 he with h | h
        · subst h
          by_cases h0 : j = 0
          · rw [if_pos h0] at hx
            simp only [List.cons_append, List.nil_append, List.mem_cons,
              List.mem_singleton, List.not_mem_nil, or_false] at hx
            rcases hx with h | h | h <;> subst h <;> rfl
          · rw [if_neg h0] at hx
            simp only [List.nil_append, List.mem_singleton] at hx
            subst hx
            rfl
        · exact hqe e h x hx

/-- C14: counting only the invocations of `MotionCtrlTask` that find the
motion flag set.  An invocation that finds the flag clear does nothing.
After any completed run from the initial state the statics are those of the
number `j` of flagged invocations so far and the flag is clear.  A run with
at most 500 flagged invocations always completes, leaves the controller state
untouched and forwards no command.  In a state with `j` flagged invocations
behind it, a flagged invocation clears the flag and: for `j < 500` calls
`InfraredDrop_InitData(true)` (after the one-time motor initialisation when
`j = 0`) and returns without the controller; for `j = 500` calls
`InfraredDrop_InitData(false)` and runs the controller; for `j > 500` runs
the controller. -/
theorem C14_calibration_then_control (cfg : Config) :
    (∀ (s : TaskState) (inp : CycleInput), s.RunFlag_motion = 0 →
      MotionCtrlTask cfg s inp = some (s, [])) ∧
    (∀ (calls : List (Bool × CycleInput)) (r : TaskState × List (List TaskEffect)),
      motionTaskRun cfg initTask calls = some r →
      r.1.statics = taskStaticsAfter (calls.countP (fun c => c.1)) ∧
      r.1.RunFlag_motion = 0) ∧
    (∀ calls : List (Bool × CycleInput), calls.countP (fun c => c.1) ≤ 500 →
      ∃ r, motionTaskRun cfg initTask calls = some r ∧ r.1.motion = initMotion ∧
        ∀ e ∈ r.2, ∀ x ∈ e, x.isForward = false) ∧
    (∀ (j : Nat) (s : TaskState) (inp : CycleInput),
      s.statics = taskStaticsAfter j → s.RunFlag_motion ≠ 0 →
      (j < 500 →
        MotionCtrlTask cfg s inp =
          some ({ statics := taskStaticsAfter (j + 1), RunFlag_motion := 0,
                  motion := s.motion },
            (if j = 0 then
                [TaskEffect.MotorPIDInit, TaskEffect.ChassisMotorDriverEnable true]
              else []) ++ [TaskEffect.InfraredDrop_InitData true])) ∧
      (j = 500 →
        MotionCtrlTask cfg s inp =
          (ChassisMovingController cfg s.motion inp).map (fun r =>
            ({ statics := taskStaticsAfter 501, RunFlag_motion := 0, motion := r.1 },
             [TaskEffect.InfraredDrop_InitData false,
              TaskEffect.SpeedLoop_SetTargetSpeed r.2]))) ∧
      (500 < j →
        MotionCtrlTask cfg s inp =
          (ChassisMovingController cfg s.motion inp).map (fun r =>
            ({ statics := taskStaticsAfter (j + 1), RunFlag_motion := 0, motion := r.1 },
             [TaskEffect.SpeedLoop_SetTargetSpeed r.2])))) := by
  refine ⟨fun s inp hf => MotionCtrlTask_idle cfg s inp hf, ?_, ?_, ?_⟩
  · intro calls r h
    have := motionTaskRun_statics cfg calls 0 initTask rfl rfl r h
    simpa using this
  · intro calls hle
    exact motionTaskRun_calibration cfg calls 0 initTask rfl rfl (by omega)
  · intro j s inp hs hf
    refine ⟨fun hj => MotionCtrlTask_calibrating cfg s inp j hs hf hj, ?_,
      fun hj => MotionCtrlTask_running cfg s inp j hs hf hj⟩
    intro hj
    subst hj
    exact MotionCtrlTask_first_run cfg s inp hs hf

/-- C14 (instance): at 500 Hz, a flagged, an unflagged and a flagged
invocation from the initial state: the run completes with the controller
state untouched and no command forwarded; the first invocation initialises
the motor and calibrates, the second does nothing, the third calibrates. -/
theorem C14_calibration_then_control_witness :
    (∃ r, motionTaskRun cfg500 initTask
        [(true, quietInput 0 0), (false, quietInput 0 0), (true, quietInput 1 0)] = some r ∧
      r.1.motion = initMotion ∧ ∀ e ∈ r.2, ∀ x ∈ e, x.isForward = false) ∧
    motionTaskRun cfg500 initTask
        [(true, quietInput 0 0), (false, quietInput 0 0), (true, quietInput 1 0)] =
      some ({ statics := ⟨0, 1, 2⟩, RunFlag_motion := 0, motion := initMotion },
        [[TaskEffect.MotorPIDInit, TaskEffect.ChassisMotorDriverEnable true,
            TaskEffect.InfraredDrop_InitData true],
         [],
         [TaskEffect.InfraredDrop_InitData true]]) :=
  ⟨(C14_calibration_then_control cfg500).2.2.1
      [(true, quietInput 0 0), (false, quietInput 0 0), (true, quietInput 1 0)] (by decide),
   by decide⟩

end NaviPanel
